import Mathlib

/-!
# Session gateway of the chat-driven SSH bot (`src/bot.js`)

A shallow embedding of the gateway's policy guard, confirmation workflow,
session registry, panic control and output chunking, followed by theorems
about them.

Modelling conventions.

* JavaScript strings are Lean `String`s, processed through their character
  lists.  Where the program counts or cuts a text by position (the chunks of
  the shell output, `substring`), the text is taken as its list of UTF-16
  code units (`utf16`), as JavaScript does.
* A JavaScript `Map` keyed by strings is an association list (`JsMap`) with
  `get`, `set`, `delete` and `has`; insertion order is kept as in JavaScript.
* `SSHSession` objects live in an object store (`State.heap`); the registry
  `activeSessions` maps a host to a reference (an index of the store), so a
  session that left the registry can still be inspected, as the timers and
  closures of the program can.
* A handler runs to completion: messages that arrive while it awaits are
  handled after it.
* `Date.now()`, the outcome of the SSH handshake and the shell output that
  arrives while a handler waits are inputs (`Env`).
* Every `sendMessage` call site is one constructor of `Reply`; the rendering
  of the text (including `maskSensitive`) is not modelled.
* File-system calls of the audit log are assumed to succeed.
-/

namespace Bot

/-! ## JavaScript values and strings -/

/-- The values a property read on a parsed JSON object can produce.  For a
number only its truthiness is kept (`false` for `0` and `NaN`); `obj` stands
for objects, arrays and functions (inherited properties included). -/
inductive JsVal where
  | undefined
  | null
  | bool (b : Bool)
  | num (nonzero : Bool)
  | str (s : String)
  | obj
  deriving DecidableEq, Repr

/-- JavaScript truthiness (`if (v)`). -/
def JsVal.truthy : JsVal → Bool
  | .undefined => false
  | .null => false
  | .bool b => b
  | .num nz => nz
  | .str s => s.data ≠ []
  | .obj => true

/-- The comparison `s === v` for a string `s`. -/
def JsVal.strictEqStr (s : String) : JsVal → Bool
  | .str t => s == t
  | _ => false

/-- Truthiness of a string: `if (s)`. -/
def strTruthy (s : String) : Bool := s.data ≠ []

/-- The UTF-16 code units of a character: one unit up to U+FFFF, a surrogate
pair above. -/
def utf16Units (c : Char) : List Nat :=
  if c.toNat < 65536 then [c.toNat]
  else [55296 + (c.toNat - 65536) / 1024, 56320 + (c.toNat - 65536) % 1024]

/-- The UTF-16 code units of a text, which are what JavaScript indexes and
what `length` counts. -/
def utf16 (s : String) : List Nat := s.data.flatMap utf16Units

/-- The class `\d` of a regular expression without the `u` flag. -/
def isDigit (c : Char) : Bool := 48 ≤ c.toNat ∧ c.toNat ≤ 57

/-- The class `\s`, which is also the set removed by `String.prototype.trim`. -/
def isJsSpace (c : Char) : Bool :=
  c.toNat = 9 ∨ c.toNat = 10 ∨ c.toNat = 11 ∨ c.toNat = 12 ∨ c.toNat = 13 ∨
  c.toNat = 32 ∨ c.toNat = 160 ∨ c.toNat = 5760 ∨
  (8192 ≤ c.toNat ∧ c.toNat ≤ 8202) ∨ c.toNat = 8232 ∨ c.toNat = 8233 ∨
  c.toNat = 8239 ∨ c.toNat = 8287 ∨ c.toNat = 12288 ∨ c.toNat = 65279

/-- Model of `trim()` on a character list. -/
def jsTrim (l : List Char) : List Char :=
  ((l.dropWhile isJsSpace).reverse.dropWhile isJsSpace).reverse

/-- One token of `split(/\s+/)`: the longest prefix without white space, and
what follows it. -/
def splitToken : List Char → List Char × List Char
  | [] => ([], [])
  | c :: cs =>
    if isJsSpace c then ([], c :: cs)
    else ((splitToken cs).1.cons c, (splitToken cs).2)

/-- Tokens of a character list separated by runs of white space; `fuel`
bounds the number of characters looked at. -/
def splitWsFuel : Nat → List Char → List (List Char)
  | 0, _ => []
  | fuel + 1, l =>
    match l.dropWhile isJsSpace with
    | [] => []
    | c :: cs => (splitToken (c :: cs)).1 :: splitWsFuel fuel (splitToken (c :: cs)).2

/-- Model of `split(/\s+/)` on a trimmed text: it has no white space at
either end, so the result is its list of tokens, and `[""]` for an empty
text. -/
def splitWs (l : List Char) : List String :=
  match splitWsFuel (l.length + 1) l with
  | [] => [""]
  | ts => ts.map String.mk

/-- Model of `toLowerCase()`.  Only the letters A-Z are mapped: the result is
only ever compared with names written in the letters a-z without `k`, and no
other character lower-cases to one of those letters. -/
def toLowerCase (s : String) : String := String.mk (s.data.map Char.toLower)

/-- Model of `toUpperCase()`.  Only the letters a-z are mapped: the result is
only ever compared with `YA`, and no other character upper-cases to a text
made of these letters. -/
def toUpperCase (s : String) : String := String.mk (s.data.map Char.toUpper)

/-- Tries to match `\d+@` at the start of the list (the text after a `:`);
gives what follows the match. -/
def matchDeviceSuffix (rest : List Char) : Option (List Char) :=
  match rest with
  | [] => none
  | d :: _ =>
    if isDigit d then
      match rest.dropWhile isDigit with
      | '@' :: tl => some tl
      | _ => none
    else none

/-- Model of `replace(/:\d+@/g, '@')`, scanning from the left; `fuel` bounds
the number of positions tried. -/
def stripDeviceFuel : Nat → List Char → List Char
  | 0, l => l
  | _ + 1, [] => []
  | fuel + 1, c :: cs =>
    if c = ':' then
      match matchDeviceSuffix cs with
      | some tl => '@' :: stripDeviceFuel fuel tl
      | none => c :: stripDeviceFuel fuel cs
    else c :: stripDeviceFuel fuel cs

/-- Model of `normalizeJid`: `jid?.replace(/:\d+@/g, '@') || ''`. -/
def normalizeJid (jid : String) : String :=
  String.mk (stripDeviceFuel jid.data.length jid.data)

/-! ## Maps -/

/-- A JavaScript `Map` with string keys, as an association list. -/
abbrev JsMap (V : Type) := List (String × V)

namespace JsMap

variable {V : Type}

/-- The method `Map.prototype.get`. -/
def get : JsMap V → String → Option V
  | [], _ => none
  | (k, v) :: rest, key => if k = key then some v else get rest key

/-- The method `Map.prototype.has`. -/
def has (m : JsMap V) (key : String) : Bool := (get m key).isSome

/-- The method `Map.prototype.set`: replaces the value of an existing key in
place, appends a new key at the end. -/
def set : JsMap V → String → V → JsMap V
  | [], key, v => [(key, v)]
  | (k, w) :: rest, key, v =>
    if k = key then (k, v) :: rest else (k, w) :: set rest key v

/-- The method `Map.prototype.delete`. -/
def delete (m : JsMap V) (key : String) : JsMap V :=
  m.filter (fun e => decide (e.1 ≠ key))

end JsMap

/-! ## Configuration -/

/-- The object `CONFIG`, after the defaults of the environment are applied.
`hostKeySha256Map host` is the property read `CONFIG.hostKeySha256Map[host]`
on the parsed JSON object. -/
structure Config where
  ownerNumber : String
  ownerPin : String
  hostWhitelist : List String
  hostKeySha256Map : String → JsVal
  rateLimitMs : Int
  sessionIdleMs : Nat
  allowUnofficial : Bool
  sshUsePassword : Bool
  sshPassword : String

/-- The property names that every object inherits from `Object.prototype`. -/
def inheritedNames : List String :=
  ["constructor", "__proto__", "hasOwnProperty", "isPrototypeOf", "propertyIsEnumerable",
    "toLocaleString", "toString", "valueOf", "__defineGetter__", "__defineSetter__",
    "__lookupGetter__", "__lookupSetter__"]

/-- The property read `object[name]` on the object that `JSON.parse` makes of
the given entries: the entry of that name if there is one, else the inherited
member for an inherited name, else `undefined`. -/
def jsonObjectRead (entries : List (String × JsVal)) (name : String) : JsVal :=
  match JsMap.get entries name with
  | some v => v
  | none => if name ∈ inheritedNames then .obj else .undefined

/-- The function `isOwner`. -/
def isOwner (cfg : Config) (senderJid : String) : Bool :=
  normalizeJid senderJid == normalizeJid cfg.ownerNumber

/-- The function `isHostWhitelisted`. -/
def isHostWhitelisted (cfg : Config) (host : String) : Bool :=
  if cfg.hostWhitelist.length = 0 then true
  else cfg.hostWhitelist.any (fun allowed => host == allowed)

/-- The `hostVerifier` callback that `SSHSession.connect` hands to the SSH
client, for the session's host and the observed key hash. -/
def hostVerifier (cfg : Config) (host : String) (hashedKey : String) : Bool :=
  if (cfg.hostKeySha256Map host).truthy then
    (cfg.hostKeySha256Map host).strictEqStr hashedKey
  else if cfg.allowUnofficial then true
  else false

/-- Value of a digit in the given radix, for `parseInt`. -/
def digitValue (radix : Nat) (c : Char) : Option Nat :=
  let v : Option Nat :=
    if 48 ≤ c.toNat ∧ c.toNat ≤ 57 then some (c.toNat - 48)
    else if 97 ≤ c.toNat ∧ c.toNat ≤ 122 then some (c.toNat - 87)
    else if 65 ≤ c.toNat ∧ c.toNat ≤ 90 then some (c.toNat - 55)
    else none
  match v with
  | some d => if d < radix then some d else none
  | none => none

/-- Reads the longest prefix of digits; `none` when there is no digit. -/
def parseDigits (radix : Nat) : List Char → Option Nat → Option Nat
  | [], acc => acc
  | c :: cs, acc =>
    match digitValue radix c with
    | some d => parseDigits radix cs (some (acc.getD 0 * radix + d))
    | none => acc

/-- Model of `parseInt(s)` without a radix; `none` is `NaN`.  Values are exact
integers (the rounding of values beyond 2^53 is not modelled). -/
def parseInt (s : String) : Option Int :=
  let l := s.data.dropWhile isJsSpace
  let (neg, l) :=
    match l with
    | '-' :: tl => (true, tl)
    | '+' :: tl => (false, tl)
    | _ => (false, l)
  let v : Option Nat :=
    match l with
    | '0' :: 'x' :: tl => parseDigits 16 tl none
    | '0' :: 'X' :: tl => parseDigits 16 tl none
    | _ => parseDigits 10 l none
  v.map (fun n => if neg then - (n : Int) else (n : Int))

/-! ## Replies and effects -/

/-- The texts the bot sends, one constructor for each `sendMessage` call
site, with the values interpolated into the text. -/
inductive Reply where
  | idleClosed
  | helpText
  | connectUsage
  | wrongPin
  | hostNotWhitelisted (host : String)
  | confirmPrompt (host user port : String)
  | noPending
  | confirmCancelled
  | connecting (host : String)
  | connectOk (host user : String)
  | connectFailed (msg : String)
  | noSessionConnectFirst
  | noSession
  | sessionInactive
  | installBadMode
  | installStarting (mode : String)
  | outputChunk (chunk : List Nat)
  | installSent
  | handlerError (msg : String)
  | safeinstallBadMode
  | safeinstallDownloading
  | scriptPreview (text : List Nat)
  | scriptSha (text : String)
  | verified
  | safeinstallStarted
  | dryrunUsage
  | dryrunText (host : String)
  | ufwUsage
  | ufwOpening (mode : String)
  | ufwUpdated (output : String)
  | ufwSent
  | sendUsage
  | commandSent (command : String)
  | enterSent
  | ctrlcSent
  | statusNone
  | statusText (connected : Bool) (host user : String) (port : Option Int)
      (uptime : Int) (startTime : Nat)
  | switchUsage
  | noSuchSession (host : String)
  | switched (host : String)
  | closeNone
  | closed
  | panicActivated
  | panicCleared
  | accessDenied
  | panicNotice
  | rateLimited
  | commandError (msg : String)
  | unknownCommand (command : String)
  deriving DecidableEq, Repr

/-- What a handler does to the outside world, in order. -/
inductive Effect where
  /-- A call `sendMessage(chatJid, text)`. -/
  | sendMessage (chatJid : String) (reply : Reply)
  /-- The call `sendDocument` that `close` schedules, for the log file of
  the session named by host and start time. -/
  | sendDocument (chatJid : String) (host : String) (startTime : Nat)
  /-- A call `session.connect()`. -/
  | connect (host user : String) (port : Option Int)
  /-- The streaming loop that `install` starts on a session. -/
  | setInterval (ref : Nat) (chatJid : String)
  /-- The one-shot drain that `send` schedules on a session. -/
  | setTimeout (ref : Nat) (chatJid : String)
  deriving DecidableEq, Repr

/-! ## Sessions -/

/-- What the SSH library reports for one connection attempt. -/
inductive AfterKey where
  /-- An `error` event after the host key was accepted. -/
  | error (msg : String)
  /-- The `ready` event, and then an error from `client.shell`. -/
  | shellError (msg : String)
  /-- The `ready` event and an open shell. -/
  | shell
  deriving DecidableEq, Repr

/-- The course of one `session.connect()`. -/
inductive SshOutcome where
  /-- Reading the private key failed, before any connection. -/
  | keyFileError (msg : String)
  /-- An `error` event before a host key was seen. -/
  | error (msg : String)
  /-- The server presented a host key with this hash. -/
  | hostKey (hashedKey : String) (next : AfterKey)
  deriving DecidableEq, Repr

/-- The fields of an `SSHSession` object.  `stream` is `none` for `null` and
otherwise holds what was written to the shell; `idleTimeout` is the armed
timer, as its expiry time and the chat it closes with; the log file is named
by `host` and `startTime`, its lines are `logLines`. -/
structure SSHSession where
  host : String
  user : String
  port : Option Int
  stream : Option (List String)
  connected : Bool
  buffer : String
  startTime : Nat
  idleTimeout : Option (Nat × String)
  senderJid : Option String
  chatJid : Option String
  logLines : List String
  deriving DecidableEq, Repr

namespace SSHSession

/-- The constructor `new SSHSession(host, user, port)` at time `now`. -/
def new (host user : String) (port : Option Int) (now : Nat) : SSHSession :=
  { host := host, user := user, port := port, stream := none, connected := false,
    buffer := "", startTime := now, idleTimeout := none, senderJid := none,
    chatJid := none, logLines := [] }

/-- The method `log`. -/
def log (self : SSHSession) (message : String) : SSHSession :=
  { self with logLines := self.logLines ++ [message] }

/-- The method `resetIdleTimeout(chatJid)` called at time `now`. -/
def resetIdleTimeout (sessionIdleMs : Nat) (self : SSHSession) (chatJid : String)
    (now : Nat) : SSHSession :=
  { self with idleTimeout := some (now + sessionIdleMs, chatJid) }

/-- The handler of the stream's `data` event. -/
def onData (self : SSHSession) (data : String) : SSHSession :=
  ({ self with buffer := self.buffer ++ data }).log ("OUTPUT: " ++ data)

/-- The handler of the error stream's `data` event. -/
def onStderr (self : SSHSession) (data : String) : SSHSession :=
  ({ self with buffer := self.buffer ++ data }).log ("STDERR: " ++ data)

/-- The handler of the stream's `close` event. -/
def onStreamClose (self : SSHSession) : SSHSession :=
  ({ self with connected := false }).log "Shell session closed"

/-- The method `sendCommand(command)`; `Except.error` is the thrown error. -/
def sendCommand (self : SSHSession) (command : String) : Except String SSHSession :=
  match self.connected, self.stream with
  | true, some written =>
    .ok (({ self with buffer := "", stream := some (written ++ [command ++ "\n"]) }).log
      ("COMMAND: " ++ command))
  | _, _ => .error "Tidak ada koneksi SSH aktif"

/-- The call `session.stream.write(data)` of the `enter` and `ctrlc` handlers;
it throws when `stream` is `null`. -/
def write (self : SSHSession) (data : String) : Except String SSHSession :=
  match self.stream with
  | some written => .ok { self with stream := some (written ++ [data]) }
  | none => .error "Cannot read properties of null (reading 'write')"

/-- The method `getBufferedOutput()`: the output and the session after it. -/
def getBufferedOutput (self : SSHSession) : String × SSHSession :=
  (self.buffer, { self with buffer := "" })

/-- The method `close(chatJid)`: the session after it and the document send
it schedules. -/
def close (self : SSHSession) (chatJid : Option String) : SSHSession × List Effect :=
  let closed := ({ self with idleTimeout := none, connected := false }).log
    "Connection closed by user"
  match chatJid with
  | some c =>
    if strTruthy c then (closed, [Effect.sendDocument c self.host self.startTime])
    else (closed, [])
  | none => (closed, [])

end SSHSession

/-- What the SSH library reports once `client.connect` runs. -/
inductive Handshake where
  /-- An `error` event before a host key was seen. -/
  | error (msg : String)
  /-- The server presented a host key with this hash. -/
  | hostKey (hashedKey : String) (next : AfterKey)
  deriving DecidableEq, Repr

/-- The world as one `session.connect()` meets it: the error of reading the
private key file (`none` when it can be read) and the handshake. -/
structure SshEnv where
  keyFile : Option String
  handshake : Handshake
  deriving DecidableEq, Repr

/-- The error of the SSH client for a host key its verifier rejects. -/
def hostDenied : String := "Host denied (verification failed)"

namespace SSHSession

/-- The log line the `hostVerifier` callback writes. -/
def verifierLog (cfg : Config) (self : SSHSession) (hashedKey : String) : SSHSession :=
  if (cfg.hostKeySha256Map self.host).truthy then
    if (cfg.hostKeySha256Map self.host).strictEqStr hashedKey then self
    else self.log ("ERROR: Host key mismatch for " ++ self.host)
  else if cfg.allowUnofficial then
    self.log ("WARNING: Host key not verified for " ++ self.host)
  else
    self.log ("ERROR: Host key verification required but not configured for " ++ self.host)

/-- The events of `client.connect(connConfig)`: the session after them and
the error the promise is rejected with (`none` when it resolves). -/
def runHandshake (cfg : Config) (self : SSHSession) : Handshake → SSHSession × Option String
  | .error msg => (self.log ("SSH ERROR: " ++ msg), some msg)
  | .hostKey hashedKey next =>
    if hostVerifier cfg self.host hashedKey then
      match next with
      | .error msg => ((self.verifierLog cfg hashedKey).log ("SSH ERROR: " ++ msg), some msg)
      | .shellError msg =>
        ((self.verifierLog cfg hashedKey).log "SSH connection established", some msg)
      | .shell =>
        (({ (self.verifierLog cfg hashedKey).log "SSH connection established" with
            stream := some [], connected := true }).log "Shell session started", none)
    else
      ((self.verifierLog cfg hashedKey).log ("SSH ERROR: " ++ hostDenied), some hostDenied)

/-- The method `connect()`. -/
def connect (cfg : Config) (self : SSHSession) (env : SshEnv) : SSHSession × Option String :=
  if cfg.sshUsePassword && strTruthy cfg.sshPassword then
    runHandshake cfg (self.log "Using password authentication (not recommended)") env.handshake
  else
    match env.keyFile with
    | some msg => (self, some ("Gagal membaca SSH key: " ++ msg))
    | none => runHandshake cfg (self.log "Using key-based authentication") env.handshake

/-- Output chunks arriving on the stream, in order. -/
def arrive (self : SSHSession) (chunks : List String) : SSHSession :=
  chunks.foldl onData self

end SSHSession

/-! ## Global state -/

/-- A value of the map `pendingConfirmations`. -/
structure Pending where
  host : String
  user : String
  port : Option Int
  chatJid : String
  deriving DecidableEq, Repr

/-- The object `state` (without the socket), and the store of the
`SSHSession` objects constructed so far. -/
structure State where
  panicMode : Bool
  activeSessions : JsMap Nat
  pendingConfirmations : JsMap Pending
  lastCommandTime : JsMap Nat
  currentSession : JsMap String
  heap : List SSHSession
  deriving DecidableEq, Repr

/-- The state the program starts in. -/
def State.initial : State :=
  { panicMode := false, activeSessions := [], pendingConfirmations := [],
    lastCommandTime := [], currentSession := [], heap := [] }

/-- The session object `state.activeSessions.get(host)`, with its reference. -/
def State.session? (s : State) (host : String) : Option (Nat × SSHSession) :=
  match JsMap.get s.activeSessions host with
  | none => none
  | some ref =>
    match s.heap[ref]? with
    | none => none
    | some session => some (ref, session)

/-- Writes a session object back to the store. -/
def State.setSession (s : State) (ref : Nat) (session : SSHSession) : State :=
  { s with heap := s.heap.set ref session }

/-- The inputs of one handler run: the clock, the SSH server, and the output
chunks that arrive during the first, second, ... wait of the handler. -/
structure Env where
  now : Nat
  ssh : SshEnv
  shellOutput : List (List String)
  deriving DecidableEq, Repr

/-- The result of a handler: the state after it, what it did, and the
exception it threw, if any. -/
structure Outcome where
  state : State
  effects : List Effect
  thrown : Option String
  deriving DecidableEq, Repr

/-- A handler that only sends one message. -/
def replyOnly (s : State) (chatJid : String) (r : Reply) : Outcome :=
  { state := s, effects := [Effect.sendMessage chatJid r], thrown := none }

/-- The function `checkRateLimit`, with the value of `Date.now()`. -/
def checkRateLimit (cfg : Config) (s : State) (senderJid : String) (now : Nat) :
    Bool × State :=
  let lastTime : Nat := (JsMap.get s.lastCommandTime senderJid).getD 0
  if (now : Int) - (lastTime : Int) < cfg.rateLimitMs then (false, s)
  else (true, { s with lastCommandTime := JsMap.set s.lastCommandTime senderJid now })

/-- The ledger entry read by `checkRateLimit`:
`state.lastCommandTime.get(senderJid) || 0`. -/
def lastTime (s : State) (senderJid : String) : Nat :=
  (JsMap.get s.lastCommandTime senderJid).getD 0

/-- Successive calls of `checkRateLimit` by one sender at the given clock
readings: the result of each call, and the state after the last. -/
def rateLimitRun (cfg : Config) (senderJid : String) : State → List Nat → List Bool × State
  | s, [] => ([], s)
  | s, now :: rest =>
    ((checkRateLimit cfg s senderJid now).1 ::
        (rateLimitRun cfg senderJid (checkRateLimit cfg s senderJid now).2 rest).1,
      (rateLimitRun cfg senderJid (checkRateLimit cfg s senderJid now).2 rest).2)

/-! ## Command handlers -/

namespace commands

/-- The handler `commands.help`. -/
def help (s : State) (chatJid : String) : Outcome :=
  replyOnly s chatJid .helpText

/-- The handler `commands.connect`. -/
def connect (cfg : Config) (s : State) (chatJid senderJid : String) (args : List String) :
    Outcome :=
  match args with
  | pin :: host :: rest =>
    let user := rest.head?.getD "root"
    let port := (rest.drop 1).head?.getD "22"
    if pin ≠ cfg.ownerPin then replyOnly s chatJid .wrongPin
    else if !isHostWhitelisted cfg host then replyOnly s chatJid (.hostNotWhitelisted host)
    else
      let pending : Pending :=
        { host := host, user := user, port := parseInt port, chatJid := chatJid }
      replyOnly
        { s with pendingConfirmations := JsMap.set s.pendingConfirmations senderJid pending }
        chatJid (.confirmPrompt host user port)
  | _ => replyOnly s chatJid .connectUsage

/-- The handler `commands.confirm`. -/
def confirm (cfg : Config) (env : Env) (s : State) (chatJid senderJid : String)
    (args : List String) : Outcome :=
  match JsMap.get s.pendingConfirmations senderJid with
  | none => replyOnly s chatJid .noPending
  | some pending =>
    if args.head?.map toUpperCase ≠ some "YA" then
      replyOnly { s with pendingConfirmations := JsMap.delete s.pendingConfirmations senderJid }
        chatJid .confirmCancelled
    else
      let session : SSHSession :=
        { SSHSession.new pending.host pending.user pending.port env.now with
          senderJid := some senderJid, chatJid := some chatJid }
      let ref := s.heap.length
      let start := [Effect.sendMessage chatJid (.connecting pending.host),
        Effect.connect pending.host pending.user pending.port]
      match session.connect cfg env.ssh with
      | (session, none) =>
        { state :=
            { s with
              pendingConfirmations := JsMap.delete s.pendingConfirmations senderJid
              heap := s.heap ++ [session.resetIdleTimeout cfg.sessionIdleMs chatJid env.now]
              activeSessions := JsMap.set s.activeSessions pending.host ref
              currentSession := JsMap.set s.currentSession senderJid pending.host }
          effects := start ++ [Effect.sendMessage chatJid (.connectOk pending.host pending.user)]
          thrown := none }
      | (session, some msg) =>
        { state :=
            { s with
              pendingConfirmations := JsMap.delete s.pendingConfirmations senderJid
              heap := s.heap ++ [session] }
          effects := start ++ [Effect.sendMessage chatJid (.connectFailed msg)]
          thrown := none }

/-- The handler `commands.status`; it throws when the current host has no
session in the registry. -/
def status (env : Env) (s : State) (chatJid senderJid : String) : Outcome :=
  match (JsMap.get s.currentSession senderJid).filter strTruthy with
  | none => replyOnly s chatJid .statusNone
  | some currentHost =>
    match s.session? currentHost with
    | none =>
      { state := s, effects := [],
        thrown := some "Cannot read properties of undefined (reading 'startTime')" }
    | some (_, session) =>
      replyOnly s chatJid
        (.statusText session.connected session.host session.user session.port
          (((env.now : Int) - (session.startTime : Int)) / 1000) session.startTime)

/-- The handler `commands.switch`. -/
def switch (s : State) (chatJid senderJid : String) (args : List String) : Outcome :=
  match args.head?.filter strTruthy with
  | none => replyOnly s chatJid .switchUsage
  | some targetHost =>
    match s.session? targetHost with
    | none => replyOnly s chatJid (.noSuchSession targetHost)
    | some _ =>
      replyOnly { s with currentSession := JsMap.set s.currentSession senderJid targetHost }
        chatJid (.switched targetHost)

/-- The handler `commands.close`. -/
def close (s : State) (chatJid senderJid : String) : Outcome :=
  match (JsMap.get s.currentSession senderJid).filter strTruthy with
  | none => replyOnly s chatJid .closeNone
  | some currentHost =>
    match s.session? currentHost with
    | none => { state := s, effects := [], thrown := none }
    | some (ref, session) =>
      { state :=
          { s with
            heap := s.heap.set ref (session.close (some chatJid)).1
            activeSessions := JsMap.delete s.activeSessions currentHost
            currentSession := JsMap.delete s.currentSession senderJid }
        effects := (session.close (some chatJid)).2 ++ [Effect.sendMessage chatJid .closed]
        thrown := none }

/-- The call `session.close(null)` on the object behind a reference. -/
def closeRef (heap : List SSHSession) (ref : Nat) : List SSHSession :=
  match heap[ref]? with
  | none => heap
  | some session => heap.set ref (session.close none).1

/-- The handler `commands.panic`. -/
def panic (s : State) (chatJid : String) : Outcome :=
  replyOnly
    { s with
      panicMode := true
      heap := s.activeSessions.foldl (fun heap entry => closeRef heap entry.2) s.heap
      activeSessions := []
      currentSession := []
      pendingConfirmations := [] }
    chatJid .panicActivated

/-- The handler `commands.unpanic`. -/
def unpanic (s : State) (chatJid : String) : Outcome :=
  replyOnly { s with panicMode := false } chatJid .panicCleared

end commands

/-! ## Output chunking -/

/-- The largest chunk of shell output sent in one message. -/
def maxChunk : Nat := 3500

/-- The successive greedy matches of `/[\s\S]{1,n}/g` on a list of code
units; `fuel` bounds the number of matches. -/
def matchChunksFuel {α : Type} (n : Nat) : Nat → List α → List (List α)
  | 0, _ => []
  | _ + 1, [] => []
  | fuel + 1, x :: xs => (x :: xs).take n :: matchChunksFuel n fuel ((x :: xs).drop n)

/-- Model of `output.match(/[\s\S]{1,3500}/g) || []`. -/
def matchChunks (output : String) : List (List Nat) :=
  matchChunksFuel maxChunk (utf16 output).length (utf16 output)

/-- The chunks the streaming code sends for one drained output: none when
`output.trim()` is empty. -/
def outputChunks (output : String) : List (List Nat) :=
  if jsTrim output.data ≠ [] then matchChunks output else []

/-- The messages of the streaming code for one drained output. -/
def streamOutput (chatJid : String) (output : String) : List Effect :=
  (outputChunks output).map (fun chunk => Effect.sendMessage chatJid (.outputChunk chunk))

/-- One tick of the interval that `commands.install` starts on the session
behind `ref`: the state after it, the messages sent, and whether the interval
clears itself. -/
def streamTick (s : State) (ref : Nat) (chatJid : String) : State × List Effect × Bool :=
  match s.heap[ref]? with
  | none => (s, [], true)
  | some session =>
    (s.setSession ref session.getBufferedOutput.2,
      streamOutput chatJid session.getBufferedOutput.1, !session.connected)

/-- The deferred drain that `commands.send` schedules on the session behind
`ref`. -/
def sendDrain (s : State) (ref : Nat) (chatJid : String) : State × List Effect :=
  match s.heap[ref]? with
  | none => (s, [])
  | some session =>
    (s.setSession ref session.getBufferedOutput.2,
      streamOutput chatJid session.getBufferedOutput.1)

/-! ## Handlers that drive the shell -/

/-- The progress of a `try` block working on one session: once `error` is
set the remaining steps are skipped. -/
structure Run where
  session : SSHSession
  effects : List Effect
  error : Option String
  deriving DecidableEq, Repr

namespace Run

/-- A step `session.sendCommand(command)`. -/
def sendCommand (r : Run) (command : String) : Run :=
  match r.error with
  | some _ => r
  | none =>
    match r.session.sendCommand command with
    | .ok session => { r with session := session }
    | .error msg => { r with error := some msg }

/-- A wait, during which the given output chunks arrive. -/
def wait (r : Run) (chunks : List String) : Run :=
  match r.error with
  | some _ => r
  | none => { r with session := r.session.arrive chunks }

/-- A step with an effect on the outside world. -/
def effect (r : Run) (e : Effect) : Run :=
  match r.error with
  | some _ => r
  | none => { r with effects := r.effects ++ [e] }

/-- A step `session.getBufferedOutput()` followed by a message that depends
on the output. -/
def drain (r : Run) (chatJid : String) (f : String → Option Reply) : Run :=
  match r.error with
  | some _ => r
  | none =>
    { r with
      session := r.session.getBufferedOutput.2
      effects := r.effects ++
        (match f r.session.getBufferedOutput.1 with
          | some reply => [Effect.sendMessage chatJid reply]
          | none => []) }

/-- A step `session.resetIdleTimeout(chatJid)` at time `now`. -/
def resetIdleTimeout (r : Run) (sessionIdleMs : Nat) (chatJid : String) (now : Nat) : Run :=
  match r.error with
  | some _ => r
  | none => { r with session := r.session.resetIdleTimeout sessionIdleMs chatJid now }

/-- The end of the `try` block: the `catch` clause reports the error. -/
def finish (r : Run) (s : State) (ref : Nat) (chatJid : String) : Outcome :=
  { state := s.setSession ref r.session
    effects := r.effects ++
      (match r.error with
        | some msg => [Effect.sendMessage chatJid (.handlerError msg)]
        | none => [])
    thrown := none }

end Run

/-- The session a shell handler works on: `state.currentSession.get` and then
`state.activeSessions.get`, or the reply for their absence. -/
def activeSession (s : State) (senderJid : String) (absent : Reply) :
    Except Reply (Nat × SSHSession) :=
  match (JsMap.get s.currentSession senderJid).filter strTruthy with
  | none => .error absent
  | some currentHost =>
    match s.session? currentHost with
    | none => .error .sessionInactive
    | some (ref, session) =>
      if session.connected then .ok (ref, session) else .error .sessionInactive

/-- The command line `installCmd` of the installer. -/
def installCmd : String :=
  "set -e && apt-get update -y && apt-get install -y curl sudo && bash <(curl -s https://pterodactyl-installer.se)"

/-- The read `modeMap[mode]` of `commands.install`, as the text that
`sendCommand` writes for it; `none` when the value is `undefined`.  The two
lower-case names every object inherits are truthy as well. -/
def installModeMap : Option String → Option String
  | some "panel" => some "0"
  | some "wings" => some "1"
  | some "both" => some "2"
  | some "uninstall" => some "6"
  | some "constructor" => some "function Object() \x7b [native code] \x7d"
  | some "__proto__" => some "[object Object]"
  | _ => none

/-- The read `modeMap[mode]` of `commands.safeinstall`, after the check that
`mode` is one of the three names. -/
def safeinstallModeMap : Option String → Option String
  | some "panel" => some "0"
  | some "wings" => some "1"
  | some "both" => some "2"
  | _ => none

namespace commands

/-- The handler `commands.install`. -/
def install (cfg : Config) (env : Env) (s : State) (chatJid senderJid : String)
    (args : List String) : Outcome :=
  match activeSession s senderJid .noSessionConnectFirst with
  | .error reply => replyOnly s chatJid reply
  | .ok (ref, session) =>
    match installModeMap (args.head?.map toLowerCase) with
    | none => replyOnly s chatJid .installBadMode
    | some option =>
      let mode := (args.head?.map toLowerCase).getD ""
      let r : Run :=
        { session := session
          effects := [Effect.sendMessage chatJid (.installStarting mode)]
          error := none }
      let r := r.sendCommand installCmd
      let r := r.wait (env.shellOutput.getD 0 [])
      let r := r.sendCommand option
      let r := r.effect (Effect.setInterval ref chatJid)
      let r := r.resetIdleTimeout cfg.sessionIdleMs chatJid (env.now + 3000)
      let r := r.effect (Effect.sendMessage chatJid .installSent)
      r.finish s ref chatJid

/-- The handler `commands.safeinstall`. -/
def safeinstall (cfg : Config) (env : Env) (s : State) (chatJid senderJid : String)
    (args : List String) : Outcome :=
  match activeSession s senderJid .noSession with
  | .error reply => replyOnly s chatJid reply
  | .ok (ref, session) =>
    match safeinstallModeMap (args.head?.map toLowerCase) with
    | none => replyOnly s chatJid .safeinstallBadMode
    | some option =>
      let r : Run :=
        { session := session
          effects := [Effect.sendMessage chatJid .safeinstallDownloading]
          error := none }
      let r := r.sendCommand
        "curl -fsSL https://pterodactyl-installer.se -o /tmp/ptero.sh && chmod +x /tmp/ptero.sh"
      let r := r.wait (env.shellOutput.getD 0 [])
      let r := r.sendCommand "head -n 50 /tmp/ptero.sh"
      let r := r.wait (env.shellOutput.getD 1 [])
      let r := r.drain chatJid (fun output =>
        if jsTrim output.data ≠ [] then
          some (.scriptPreview ((utf16 output).take 3500))
        else none)
      let r := r.sendCommand "sha256sum /tmp/ptero.sh"
      let r := r.wait (env.shellOutput.getD 2 [])
      let r := r.drain chatJid (fun output =>
        if jsTrim output.data ≠ [] then some (.scriptSha (String.mk (jsTrim output.data)))
        else none)
      let r := r.effect (Effect.sendMessage chatJid .verified)
      let r := r.sendCommand "bash /tmp/ptero.sh"
      let r := r.wait (env.shellOutput.getD 3 [])
      let r := r.sendCommand option
      let r := r.resetIdleTimeout cfg.sessionIdleMs chatJid (env.now + 7500)
      let r := r.effect (Effect.sendMessage chatJid .safeinstallStarted)
      r.finish s ref chatJid

/-- The handler `commands.dryrun`. -/
def dryrun (s : State) (chatJid : String) (args : List String) : Outcome :=
  match args.head?.filter strTruthy with
  | none => replyOnly s chatJid .dryrunUsage
  | some host => replyOnly s chatJid (.dryrunText host)

/-- The handler `commands.ufw`. -/
def ufw (cfg : Config) (env : Env) (s : State) (chatJid senderJid : String)
    (args : List String) : Outcome :=
  match activeSession s senderJid .noSession with
  | .error reply => replyOnly s chatJid reply
  | .ok (ref, session) =>
    match args with
    | "open" :: mode :: _ =>
      if mode = "panel" ∨ mode = "wings" then
        let r : Run :=
          { session := session
            effects := [Effect.sendMessage chatJid (.ufwOpening mode)]
            error := none }
        let r := r.sendCommand
          (if mode = "panel" then "ufw allow 80/tcp && ufw allow 443/tcp && ufw reload"
            else "ufw allow 8080/tcp && ufw allow 2022/tcp && ufw reload")
        let r := r.wait (env.shellOutput.getD 0 [])
        let r := r.drain chatJid (fun output =>
          if jsTrim output.data ≠ [] then some (.ufwUpdated output) else some .ufwSent)
        let r := r.resetIdleTimeout cfg.sessionIdleMs chatJid (env.now + 2000)
        r.finish s ref chatJid
      else replyOnly s chatJid .ufwUsage
    | _ => replyOnly s chatJid .ufwUsage

/-- The handler `commands.send`; the drain it schedules is `sendDrain`. -/
def send (cfg : Config) (env : Env) (s : State) (chatJid senderJid : String)
    (args : List String) : Outcome :=
  match activeSession s senderJid .noSession with
  | .error reply => replyOnly s chatJid reply
  | .ok (ref, session) =>
    let command := " ".intercalate args
    if !strTruthy command then replyOnly s chatJid .sendUsage
    else
      let r : Run := { session := session, effects := [], error := none }
      let r := r.sendCommand command
      let r := r.resetIdleTimeout cfg.sessionIdleMs chatJid env.now
      let r := r.effect (Effect.sendMessage chatJid (.commandSent command))
      let r := r.effect (Effect.setTimeout ref chatJid)
      r.finish s ref chatJid

/-- The handlers `commands.enter` and `commands.ctrlc`, which write `data` to
the stream outside any `try` block. -/
def writeKey (cfg : Config) (env : Env) (s : State) (chatJid senderJid : String)
    (data : String) (sent : Reply) : Outcome :=
  match activeSession s senderJid .noSession with
  | .error reply => replyOnly s chatJid reply
  | .ok (ref, session) =>
    match session.write data with
    | .error msg => { state := s, effects := [], thrown := some msg }
    | .ok session =>
      replyOnly (s.setSession ref (session.resetIdleTimeout cfg.sessionIdleMs chatJid env.now))
        chatJid sent

/-- The handler `commands.enter`. -/
def enter (cfg : Config) (env : Env) (s : State) (chatJid senderJid : String) : Outcome :=
  writeKey cfg env s chatJid senderJid "\n" .enterSent

/-- The handler `commands.ctrlc`. -/
def ctrlc (cfg : Config) (env : Env) (s : State) (chatJid senderJid : String) : Outcome :=
  writeKey cfg env s chatJid senderJid "\x03" .ctrlcSent

end commands

/-! ## The message handler -/

/-- The payload of an incoming message, by its first key. -/
inductive MessageContent where
  | conversation (text : String)
  | extendedTextMessage (text : Option String)
  | other
  deriving DecidableEq, Repr

/-- An incoming message: `key.remoteJid`, `key.participant` and the payload. -/
structure Message where
  remoteJid : String
  participant : Option String
  content : MessageContent
  deriving DecidableEq, Repr

/-- The sender: `message.key.participant || message.key.remoteJid`. -/
def Message.senderJid (message : Message) : String :=
  match message.participant.filter strTruthy with
  | some p => p
  | none => message.remoteJid

/-- The text of a message of one of the two text types. -/
def Message.text (message : Message) : Option String :=
  match message.content with
  | .conversation text => some text
  | .extendedTextMessage text => some (text.getD "")
  | .other => none

/-- The parse `text.slice(1).trim().split(/\s+/)` with the command in lower
case. -/
def parseCommand (text : String) : String × List String :=
  match splitWs (jsTrim (text.data.drop 1)) with
  | cmd :: args => (toLowerCase cmd, args)
  | [] => ("", [])

/-- The table `aliases`: `aliases[command] || command`. -/
def resolveAlias : String → String
  | "menu" => "help"
  | "ya" => "confirm"
  | command => command

/-- The table `commands`: the handler of a name run on the arguments, `none`
for a name without handler.  (The two lower-case names every object inherits
are truthy in `aliases`, so they are replaced by an object there and are not
found in `commands` either.) -/
def runCommand (cfg : Config) (env : Env) (s : State) (chatJid senderJid : String)
    (args : List String) : String → Option Outcome
  | "help" => some (commands.help s chatJid)
  | "connect" => some (commands.connect cfg s chatJid senderJid args)
  | "confirm" => some (commands.confirm cfg env s chatJid senderJid args)
  | "install" => some (commands.install cfg env s chatJid senderJid args)
  | "safeinstall" => some (commands.safeinstall cfg env s chatJid senderJid args)
  | "dryrun" => some (commands.dryrun s chatJid args)
  | "ufw" => some (commands.ufw cfg env s chatJid senderJid args)
  | "send" => some (commands.send cfg env s chatJid senderJid args)
  | "enter" => some (commands.enter cfg env s chatJid senderJid)
  | "ctrlc" => some (commands.ctrlc cfg env s chatJid senderJid)
  | "status" => some (commands.status env s chatJid senderJid)
  | "switch" => some (commands.switch s chatJid senderJid args)
  | "close" => some (commands.close s chatJid senderJid)
  | "panic" => some (commands.panic s chatJid)
  | "unpanic" => some (commands.unpanic s chatJid)
  | _ => none

/-- The result of `handleMessage`: the state after it, what it did, and the
name of the command handler it ran, if it ran one. -/
structure Handled where
  state : State
  effects : List Effect
  handler : Option String
  deriving DecidableEq, Repr

/-- The function `handleMessage`. -/
def handleMessage (cfg : Config) (env : Env) (s : State) (message : Message) : Handled :=
  let chatJid := message.remoteJid
  let senderJid := message.senderJid
  match message.text with
  | none => { state := s, effects := [], handler := none }
  | some text =>
    if text.data.head? ≠ some '.' then { state := s, effects := [], handler := none }
    else if !isOwner cfg senderJid then
      { state := s, effects := [Effect.sendMessage chatJid .accessDenied], handler := none }
    else if s.panicMode && text ≠ ".unpanic" then
      { state := s, effects := [Effect.sendMessage chatJid .panicNotice], handler := none }
    else if !(checkRateLimit cfg s senderJid env.now).1 then
      { state := (checkRateLimit cfg s senderJid env.now).2
        effects := [Effect.sendMessage chatJid .rateLimited], handler := none }
    else
      let command := (parseCommand text).1
      let args := (parseCommand text).2
      let actualCommand := resolveAlias command
      match runCommand cfg env (checkRateLimit cfg s senderJid env.now).2 chatJid senderJid
          args actualCommand with
      | some outcome =>
        { state := outcome.state
          effects := outcome.effects ++
            (match outcome.thrown with
              | some msg => [Effect.sendMessage chatJid (.commandError msg)]
              | none => [])
          handler := some actualCommand }
      | none =>
        { state := (checkRateLimit cfg s senderJid env.now).2
          effects := [Effect.sendMessage chatJid (.unknownCommand command)]
          handler := none }

/-! ## Events between commands -/

/-- What happens to a session between two drains of its buffer: a chunk
arrives on the shell's output or error stream, or a command is sent. -/
inductive SessionEvent where
  | data (chunk : String)
  | stderr (chunk : String)
  | sendCommand (command : String)
  deriving DecidableEq, Repr

/-- The chunk that an event brings, if it is an arrival. -/
def SessionEvent.chunk? : SessionEvent → Option String
  | .data chunk => some chunk
  | .stderr chunk => some chunk
  | .sendCommand _ => none

/-- Whether an event is a `sendCommand` call. -/
def SessionEvent.isCommand : SessionEvent → Bool
  | .sendCommand _ => true
  | _ => false

namespace SSHSession

/-- One event on a session; a `sendCommand` that throws leaves the session as
it was. -/
def applyEvent (self : SSHSession) : SessionEvent → SSHSession
  | .data chunk => self.onData chunk
  | .stderr chunk => self.onStderr chunk
  | .sendCommand command =>
    match self.sendCommand command with
    | .ok session => session
    | .error _ => self

/-- Events on a session, in order. -/
def applyEvents (self : SSHSession) (events : List SessionEvent) : SSHSession :=
  events.foldl applyEvent self

end SSHSession

/-- The callback that `resetIdleTimeout` arms, for the session behind `ref`
at time `now`: nothing while no timer is armed or the armed one is not due;
otherwise `this.close(chatJid)` and the idle notice. -/
def idleExpire (s : State) (ref : Nat) (now : Nat) : State × List Effect :=
  match s.heap[ref]? with
  | none => (s, [])
  | some session =>
    match session.idleTimeout with
    | none => (s, [])
    | some (deadline, chatJid) =>
      if deadline ≤ now then
        (s.setSession ref (session.close (some chatJid)).1,
          (session.close (some chatJid)).2 ++ [Effect.sendMessage chatJid .idleClosed])
      else (s, [])

/-! ## Sample inputs -/

/-- A configuration for the examples: owner `628123`, PIN `4321`, one
whitelisted host with a pinned key hash. -/
def sampleConfig : Config :=
  { ownerNumber := "628123@s.whatsapp.net"
    ownerPin := "4321"
    hostWhitelist := ["vps.example.org"]
    hostKeySha256Map := fun host => if host = "vps.example.org" then .str "ab12" else .undefined
    rateLimitMs := 1200
    sessionIdleMs := 600000
    allowUnofficial := false
    sshUsePassword := false
    sshPassword := "" }

/-- A server that presents the pinned key and opens a shell. -/
def sampleSsh : SshEnv :=
  { keyFile := none, handshake := .hostKey "ab12" .shell }

/-- An environment at the given time. -/
def sampleEnv (now : Nat) : Env :=
  { now := now, ssh := sampleSsh, shellOutput := [] }

/-- A text message in a direct chat. -/
def textMessage (sender : String) (text : String) : Message :=
  { remoteJid := sender, participant := none, content := .conversation text }

/-- The session behind a reference, if there is one, is not connected. -/
def ClosedAt (heap : List SSHSession) (ref : Nat) : Prop :=
  ∀ session : SSHSession, heap[ref]? = some session → session.connected = false

/-- A configuration whose fingerprint map is parsed from
`{"vps.example.org": "ab12", "old.example.org": ""}`, with unverified host
keys allowed. -/
def jsonConfig : Config :=
  { sampleConfig with
    hostKeySha256Map :=
      jsonObjectRead [("vps.example.org", .str "ab12"), ("old.example.org", .str "")]
    allowUnofficial := true }

/-- A state with a confirmation pending for the owner. -/
def pendingState : State :=
  { State.initial with
    pendingConfirmations :=
      [("628123@s.whatsapp.net", Pending.mk "vps.example.org" "root" (some 22) "chat")] }

/-- A state with one connected session, reached by confirming the pending
connection of `pendingState`. -/
def connectedState : State :=
  (commands.confirm sampleConfig (sampleEnv 7000) pendingState "chat" "628123@s.whatsapp.net"
    ["YA"]).state

/-- The session of `connectedState` after `close(null)`. -/
def closedSession : SSHSession :=
  { host := "vps.example.org", user := "root", port := some 22, stream := some [],
    connected := false, buffer := "", startTime := 7000, idleTimeout := none,
    senderJid := some "628123@s.whatsapp.net", chatJid := some "chat",
    logLines := ["Using key-based authentication", "SSH connection established",
      "Shell session started", "Connection closed by user"] }

/-- An output of 3501 characters: one `a` and then 3500 times `b`. -/
def longOutput : String := String.mk ('a' :: List.replicate 3500 'b')

/-- The state after the owner's first device connects to the whitelisted host
and confirms, the second device switches to that session, and the first
device closes it. -/
def twoDeviceState : State :=
  (commands.close
    (commands.switch
      (commands.confirm sampleConfig (sampleEnv 7000)
        (commands.connect sampleConfig State.initial "chat" "628123:1@s.whatsapp.net"
          ["4321", "vps.example.org"]).state
        "chat" "628123:1@s.whatsapp.net" ["YA"]).state
      "chat" "628123:2@s.whatsapp.net" ["vps.example.org"]).state
    "chat" "628123:1@s.whatsapp.net").state

/-- The session object of `connectedState`: connected, with the idle timer
armed for 607000 ms. -/
def openSession : SSHSession :=
  { host := "vps.example.org", user := "root", port := some 22, stream := some [],
    connected := true, buffer := "", startTime := 7000, idleTimeout := some (607000, "chat"),
    senderJid := some "628123@s.whatsapp.net", chatJid := some "chat",
    logLines := ["Using key-based authentication", "SSH connection established",
      "Shell session started"] }

/-! ## Lemmas on strings and maps -/

theorem toUpper_eq_Y (c : Char) : c.toUpper = 'Y' ↔ (c = 'Y' ∨ c = 'y') := by
  constructor
  · intro h
    unfold Char.toUpper at h
    simp only at h
    split at h
    · rename_i hr
      obtain ⟨h1, h2⟩ := hr
      have hc : c.toNat = 121 := by
        interval_cases hn : c.toNat <;> first | rfl | (exfalso; revert h; decide)
      right
      rw [← Char.ofNat_toNat c, hc]
    · exact Or.inl h
  · rintro (rfl | rfl) <;> decide

theorem toUpper_eq_A (c : Char) : c.toUpper = 'A' ↔ (c = 'A' ∨ c = 'a') := by
  constructor
  · intro h
    unfold Char.toUpper at h
    simp only at h
    split at h
    · rename_i hr
      obtain ⟨h1, h2⟩ := hr
      have hc : c.toNat = 97 := by
        interval_cases hn : c.toNat <;> first | rfl | (exfalso; revert h; decide)
      right
      rw [← Char.ofNat_toNat c, hc]
    · exact Or.inl h
  · rintro (rfl | rfl) <;> decide

/-- The comparison `token.toUpperCase() === 'YA'` holds exactly for the four
spellings of the word. -/
theorem toUpperCase_eq_YA (t : String) :
    toUpperCase t = "YA" ↔ (t = "YA" ∨ t = "Ya" ∨ t = "yA" ∨ t = "ya") := by
  constructor
  · intro h
    have hd : t.data.map Char.toUpper = ['Y', 'A'] := by
      have := congrArg String.data h
      simpa [toUpperCase] using this
    obtain ⟨l⟩ := t
    rcases l with _ | ⟨c1, _ | ⟨c2, _ | ⟨c3, tl⟩⟩⟩ <;> simp at hd
    rcases (toUpper_eq_Y c1).mp hd.1 with rfl | rfl <;>
      rcases (toUpper_eq_A c2).mp hd.2 with rfl | rfl <;> decide
  · rintro (rfl | rfl | rfl | rfl) <;> decide

theorem JsMap.get_delete_self {V : Type} (m : JsMap V) (key : String) :
    JsMap.get (JsMap.delete m key) key = none := by
  induction m with
  | nil => rfl
  | cons e rest ih =>
    obtain ⟨k, v⟩ := e
    simp only [JsMap.delete] at ih ⊢
    by_cases h : k = key
    · simpa [List.filter_cons, h] using ih
    · simp only [List.filter_cons, h, ne_eq, not_false_eq_true, decide_True, ite_true,
        JsMap.get, ite_false]
      exact ih

theorem splitWsFuel_tokens_ne_nil (fuel : Nat) :
    ∀ (l : List Char), ∀ t ∈ splitWsFuel fuel l, t ≠ [] := by
  induction fuel with
  | zero => intro l t ht; simp [splitWsFuel] at ht
  | succ fuel ih =>
    intro l t ht
    unfold splitWsFuel at ht
    split at ht
    · cases ht
    · rename_i c cs hdrop
      have hnot := List.head?_dropWhile_not isJsSpace l
      rw [hdrop] at hnot
      simp only [List.head?_cons] at hnot
      rcases List.mem_cons.mp ht with rfl | hrest
      · simp [splitToken, hnot]
      · exact ih _ t hrest

/-- The arguments that `handleMessage` parses out of a text are never empty
texts. -/
theorem parseCommand_args_ne_empty (text : String) :
    ∀ a ∈ (parseCommand text).2, a ≠ "" := by
  intro a ha
  unfold parseCommand splitWs at ha
  have htok := splitWsFuel_tokens_ne_nil ((jsTrim (text.data.drop 1)).length + 1)
    (jsTrim (text.data.drop 1))
  generalize splitWsFuel ((jsTrim (text.data.drop 1)).length + 1)
    (jsTrim (text.data.drop 1)) = ts at ha htok
  match ts, ha, htok with
  | [], ha, _ => simp at ha
  | t :: rest, ha, htok =>
    simp only [List.map_cons, List.mem_map] at ha
    obtain ⟨x, hx, rfl⟩ := ha
    have := htok x (List.mem_cons_of_mem t hx)
    intro h
    apply this
    have := congrArg String.data h
    simpa using this

/-! ## Lemmas on closing sessions -/

theorem closeRef_length (heap : List SSHSession) (ref : Nat) :
    (commands.closeRef heap ref).length = heap.length := by
  unfold commands.closeRef
  split <;> simp

theorem closeRef_closedAt_self (heap : List SSHSession) (ref : Nat) :
    ClosedAt (commands.closeRef heap ref) ref := by
  intro session hget
  unfold commands.closeRef at hget
  split at hget
  · rename_i hnone
    rw [hnone] at hget
    cases hget
  · rename_i x hsome
    rw [List.getElem?_set] at hget
    simp only [if_true] at hget
    split at hget
    · cases hget
      simp [SSHSession.close, SSHSession.log]
    · cases hget

theorem closeRef_closedAt_other (heap : List SSHSession) (ref other : Nat)
    (h : ClosedAt heap ref) : ClosedAt (commands.closeRef heap other) ref := by
  by_cases heq : other = ref
  · subst heq
    exact closeRef_closedAt_self heap other
  · intro session hget
    unfold commands.closeRef at hget
    split at hget
    · exact h session hget
    · rw [List.getElem?_set_ne heq] at hget
      exact h session hget

theorem closeAll_length (entries : JsMap Nat) (heap : List SSHSession) :
    (entries.foldl (fun heap entry => commands.closeRef heap entry.2) heap).length
      = heap.length := by
  induction entries generalizing heap with
  | nil => rfl
  | cons e rest ih => simp only [List.foldl_cons, ih, closeRef_length]

theorem closeAll_keeps_closed (entries : JsMap Nat) (heap : List SSHSession) (ref : Nat)
    (h : ClosedAt heap ref) :
    ClosedAt (entries.foldl (fun heap entry => commands.closeRef heap entry.2) heap) ref := by
  induction entries generalizing heap with
  | nil => exact h
  | cons e rest ih =>
    simp only [List.foldl_cons]
    exact ih _ (closeRef_closedAt_other heap ref e.2 h)

theorem closeAll_closes (entries : JsMap Nat) (heap : List SSHSession) (host : String)
    (ref : Nat) (hmem : (host, ref) ∈ entries) :
    ClosedAt (entries.foldl (fun heap entry => commands.closeRef heap entry.2) heap) ref := by
  induction entries generalizing heap with
  | nil => cases hmem
  | cons e rest ih =>
    simp only [List.foldl_cons]
    rcases List.mem_cons.mp hmem with heq | hrest
    · subst heq
      exact closeAll_keeps_closed rest _ ref (closeRef_closedAt_self heap ref)
    · exact ih _ hrest

/-! ## Lemmas on the rate limit -/

theorem JsMap.get_set_self {V : Type} (m : JsMap V) (key : String) (v : V) :
    JsMap.get (JsMap.set m key v) key = some v := by
  induction m with
  | nil => simp [JsMap.set, JsMap.get]
  | cons e rest ih =>
    obtain ⟨k, w⟩ := e
    by_cases h : k = key
    · simp [JsMap.set, JsMap.get, h]
    · simp [JsMap.set, JsMap.get, h, ih]

theorem JsMap.get_set_other {V : Type} (m : JsMap V) (key other : String) (v : V)
    (hne : other ≠ key) : JsMap.get (JsMap.set m key v) other = JsMap.get m other := by
  induction m with
  | nil => simp [JsMap.set, JsMap.get, Ne.symm hne]
  | cons e rest ih =>
    obtain ⟨k, w⟩ := e
    by_cases h : k = key
    · subst h
      simp [JsMap.set, JsMap.get, Ne.symm hne]
    · by_cases h2 : k = other
      · subst h2
        simp [JsMap.set, JsMap.get, h]
      · simp [JsMap.set, JsMap.get, h, h2, ih]

theorem checkRateLimit_rejects_iff (cfg : Config) (s : State) (senderJid : String) (now : Nat) :
    (checkRateLimit cfg s senderJid now).1 = false ↔
      (now : Int) - (lastTime s senderJid : Int) < cfg.rateLimitMs := by
  unfold checkRateLimit lastTime
  simp only
  split <;> simp_all

theorem checkRateLimit_accepts_iff (cfg : Config) (s : State) (senderJid : String) (now : Nat) :
    (checkRateLimit cfg s senderJid now).1 = true ↔
      cfg.rateLimitMs ≤ (now : Int) - (lastTime s senderJid : Int) := by
  have h := checkRateLimit_rejects_iff cfg s senderJid now
  cases hr : (checkRateLimit cfg s senderJid now).1
  · simp only [hr, true_iff, Bool.false_eq_true, false_iff, not_le] at h ⊢
    exact h
  · simp only [hr, Bool.true_eq_false, false_iff, not_lt, true_iff] at h ⊢
    exact h

theorem checkRateLimit_rejected_state (cfg : Config) (s : State) (senderJid : String)
    (now : Nat) (h : (checkRateLimit cfg s senderJid now).1 = false) :
    (checkRateLimit cfg s senderJid now).2 = s := by
  unfold checkRateLimit at h ⊢
  simp only at h ⊢
  split
  · rfl
  · rename_i hlt
    simp [hlt] at h

theorem checkRateLimit_accepted_state (cfg : Config) (s : State) (senderJid : String)
    (now : Nat) (h : (checkRateLimit cfg s senderJid now).1 = true) :
    (checkRateLimit cfg s senderJid now).2 =
      { s with lastCommandTime := JsMap.set s.lastCommandTime senderJid now } := by
  unfold checkRateLimit at h ⊢
  simp only at h ⊢
  split
  · rename_i hlt
    simp [hlt] at h
  · rfl

theorem lastTime_after (cfg : Config) (s : State) (senderJid : String) (now : Nat) :
    lastTime (checkRateLimit cfg s senderJid now).2 senderJid =
      if (checkRateLimit cfg s senderJid now).1 = true then now else lastTime s senderJid := by
  cases hr : (checkRateLimit cfg s senderJid now).1
  · rw [checkRateLimit_rejected_state cfg s senderJid now hr]
    simp
  · rw [checkRateLimit_accepted_state cfg s senderJid now hr]
    simp [lastTime, JsMap.get_set_self]

/-- A call with no accepted call before it in the run is compared with the
entry the run started from. -/
theorem rateLimitRun_first (cfg : Config) (senderJid : String) (times : List Nat) :
    ∀ (s : State) (j : Nat) (tj : Nat),
      (∀ k, k < j → (rateLimitRun cfg senderJid s times).1[k]? = some false) →
      times[j]? = some tj →
      ((rateLimitRun cfg senderJid s times).1[j]? = some false ↔
        (tj : Int) - (lastTime s senderJid : Int) < cfg.rateLimitMs) := by
  induction times with
  | nil => intro s j tj _ h; simp at h
  | cons t ts ih =>
    intro s j tj hbefore hj
    cases j with
    | zero =>
      simp only [List.getElem?_cons_zero, Option.some.injEq] at hj
      subst hj
      simp only [rateLimitRun, List.getElem?_cons_zero, Option.some.injEq]
      exact checkRateLimit_rejects_iff cfg s senderJid t
    | succ j =>
      simp only [List.getElem?_cons_succ] at hj
      have h0 : (checkRateLimit cfg s senderJid t).1 = false := by
        have := hbefore 0 (Nat.succ_pos j)
        simpa [rateLimitRun] using this
      have hs := checkRateLimit_rejected_state cfg s senderJid t h0
      have hb : ∀ k, k < j → (rateLimitRun cfg senderJid s ts).1[k]? = some false := by
        intro k hk
        have := hbefore (k + 1) (Nat.succ_lt_succ hk)
        simpa [rateLimitRun, hs] using this
      have := ih s j tj hb hj
      simpa [rateLimitRun, hs] using this

/-- An accepted call lies at least one interval after the entry the run
started from, when the clock readings do not decrease from that entry on. -/
theorem rateLimitRun_after_start (cfg : Config) (senderJid : String) (times : List Nat) :
    ∀ (s : State), times.Pairwise (· ≤ ·) → (∀ t ∈ times, lastTime s senderJid ≤ t) →
      ∀ (j : Nat) (tj : Nat), (rateLimitRun cfg senderJid s times).1[j]? = some true →
        times[j]? = some tj →
        cfg.rateLimitMs ≤ (tj : Int) - (lastTime s senderJid : Int) := by
  induction times with
  | nil => intro s _ _ j tj _ h; simp at h
  | cons t ts ih =>
    intro s hsorted hlast j tj hres hj
    have hsorted2 := List.pairwise_cons.mp hsorted
    cases j with
    | zero =>
      simp only [List.getElem?_cons_zero, Option.some.injEq] at hj
      subst hj
      simp only [rateLimitRun, List.getElem?_cons_zero, Option.some.injEq] at hres
      exact (checkRateLimit_accepts_iff cfg s senderJid t).mp hres
    | succ j =>
      simp only [List.getElem?_cons_succ] at hj
      simp only [rateLimitRun, List.getElem?_cons_succ] at hres
      have hmem : tj ∈ ts := List.getElem?_mem hj
      have hlt : lastTime s senderJid ≤ t := hlast t (List.mem_cons_self t ts)
      have htj : t ≤ tj := hsorted2.1 tj hmem
      have hnext := lastTime_after cfg s senderJid t
      cases hr : (checkRateLimit cfg s senderJid t).1
      · simp only [hr, Bool.false_eq_true, ite_false] at hnext
        have := ih (checkRateLimit cfg s senderJid t).2 hsorted2.2
          (by intro x hx; rw [hnext]; exact hlast x (List.mem_cons_of_mem t hx)) j tj hres hj
        rw [hnext] at this
        exact this
      · simp only [hr, ite_true] at hnext
        have := ih (checkRateLimit cfg s senderJid t).2 hsorted2.2
          (by intro x hx; rw [hnext]; exact hsorted2.1 x hx) j tj hres hj
        rw [hnext] at this
        omega

/-- After an accepted call, the next call with only rejected calls in between
is rejected exactly when it comes less than one interval later. -/
theorem rateLimitRun_next (cfg : Config) (senderJid : String) (times : List Nat) :
    ∀ (s : State) (i j ti tj : Nat), i < j → times[i]? = some ti → times[j]? = some tj →
      (rateLimitRun cfg senderJid s times).1[i]? = some true →
      (∀ k, i < k → k < j → (rateLimitRun cfg senderJid s times).1[k]? = some false) →
      ((rateLimitRun cfg senderJid s times).1[j]? = some false ↔
        (tj : Int) - (ti : Int) < cfg.rateLimitMs) := by
  induction times with
  | nil => intro s i j ti tj _ h; simp at h
  | cons t ts ih =>
    intro s i j ti tj hij hi hj hres hbetween
    obtain ⟨j, rfl⟩ : ∃ j', j = j' + 1 := ⟨j - 1, by omega⟩
    simp only [List.getElem?_cons_succ] at hj
    cases i with
    | zero =>
      simp only [List.getElem?_cons_zero, Option.some.injEq] at hi
      subst hi
      simp only [rateLimitRun, List.getElem?_cons_zero, Option.some.injEq] at hres
      have hlast := lastTime_after cfg s senderJid t
      simp only [hres, ite_true] at hlast
      have hb : ∀ k, k < j →
          (rateLimitRun cfg senderJid (checkRateLimit cfg s senderJid t).2 ts).1[k]?
            = some false := by
        intro k hk
        have := hbetween (k + 1) (Nat.succ_pos k) (Nat.succ_lt_succ hk)
        simpa [rateLimitRun] using this
      have := rateLimitRun_first cfg senderJid ts (checkRateLimit cfg s senderJid t).2 j tj hb hj
      rw [hlast] at this
      simpa [rateLimitRun] using this
    | succ i =>
      simp only [List.getElem?_cons_succ] at hi
      simp only [rateLimitRun, List.getElem?_cons_succ] at hres
      have hb : ∀ k, i < k → k < j →
          (rateLimitRun cfg senderJid (checkRateLimit cfg s senderJid t).2 ts).1[k]?
            = some false := by
        intro k hik hk
        have := hbetween (k + 1) (Nat.succ_lt_succ hik) (Nat.succ_lt_succ hk)
        simpa [rateLimitRun] using this
      have := ih (checkRateLimit cfg s senderJid t).2 i j ti tj (by omega) hi hj hres hb
      simpa [rateLimitRun] using this

/-- Two accepted calls of a run with non-decreasing clock readings are at
least one interval apart. -/
theorem rateLimitRun_spacing (cfg : Config) (senderJid : String) (times : List Nat) :
    ∀ (s : State) (i j ti tj : Nat), times.Pairwise (· ≤ ·) → i < j →
      times[i]? = some ti → times[j]? = some tj →
      (rateLimitRun cfg senderJid s times).1[i]? = some true →
      (rateLimitRun cfg senderJid s times).1[j]? = some true →
      cfg.rateLimitMs ≤ (tj : Int) - (ti : Int) := by
  induction times with
  | nil => intro s i j ti tj _ _ h; simp at h
  | cons t ts ih =>
    intro s i j ti tj hsorted hij hi hj hri hrj
    have hsorted2 := List.pairwise_cons.mp hsorted
    obtain ⟨j, rfl⟩ : ∃ j', j = j' + 1 := ⟨j - 1, by omega⟩
    simp only [List.getElem?_cons_succ] at hj
    simp only [rateLimitRun, List.getElem?_cons_succ] at hrj
    cases i with
    | zero =>
      simp only [List.getElem?_cons_zero, Option.some.injEq] at hi
      subst hi
      simp only [rateLimitRun, List.getElem?_cons_zero, Option.some.injEq] at hri
      have hlast := lastTime_after cfg s senderJid t
      simp only [hri, ite_true] at hlast
      have := rateLimitRun_after_start cfg senderJid ts (checkRateLimit cfg s senderJid t).2
        hsorted2.2 (by intro x hx; rw [hlast]; exact hsorted2.1 x hx) j tj hrj hj
      rw [hlast] at this
      exact this
    | succ i =>
      simp only [List.getElem?_cons_succ] at hi
      simp only [rateLimitRun, List.getElem?_cons_succ] at hri
      exact ih (checkRateLimit cfg s senderJid t).2 i j ti tj hsorted2.2 (by omega) hi hj hri hrj

/-- The result of `checkRateLimit` depends on the state only through the
ledger entry of the sender. -/
theorem checkRateLimit_result_congr (cfg : Config) (s1 s2 : State) (senderJid : String)
    (now : Nat) (h : lastTime s1 senderJid = lastTime s2 senderJid) :
    (checkRateLimit cfg s1 senderJid now).1 = (checkRateLimit cfg s2 senderJid now).1 := by
  have h1 := checkRateLimit_accepts_iff cfg s1 senderJid now
  have h2 := checkRateLimit_accepts_iff cfg s2 senderJid now
  rw [h] at h1
  exact Bool.eq_iff_iff.mpr (h1.trans h2.symm)

/-! ## Lemmas on chunking -/

theorem matchChunksFuel_nil {α : Type} (n fuel : Nat) :
    matchChunksFuel n fuel ([] : List α) = [] := by
  cases fuel <;> rfl

theorem ceil_div_step (n len : Nat) (hn : 0 < n) (hlen : 0 < len) :
    (len - n + n - 1) / n + 1 = (len + n - 1) / n := by
  by_cases h : n ≤ len
  · have e1 : len - n + n - 1 = len - 1 := by omega
    have e2 : len + n - 1 = (len - 1) + n := by omega
    rw [e1, e2, Nat.add_div_right _ hn]
  · have e1 : len - n + n - 1 = n - 1 := by omega
    have h0 : (n - 1) / n = 0 := Nat.div_eq_of_lt (by omega)
    have h1 : (len + n - 1) / n = 1 :=
      Nat.div_eq_of_lt_le (by omega) (by omega)
    rw [e1, h0, h1]

/-- With enough fuel the chunks of a list put together give the list back,
each has at most `n` elements, and there are `⌈length / n⌉` of them. -/
theorem matchChunksFuel_spec {α : Type} (n : Nat) (hn : 0 < n) :
    ∀ (fuel : Nat) (l : List α), l.length ≤ fuel →
      (matchChunksFuel n fuel l).flatten = l ∧
      (∀ c ∈ matchChunksFuel n fuel l, c.length ≤ n) ∧
      (matchChunksFuel n fuel l).length = (l.length + n - 1) / n := by
  intro fuel
  induction fuel with
  | zero =>
    intro l hl
    have : l = [] := List.length_eq_zero.mp (Nat.le_zero.mp hl)
    subst this
    refine ⟨rfl, ?_, ?_⟩
    · intro c hc
      cases hc
    · have : (n - 1) / n = 0 := Nat.div_eq_of_lt (by omega)
      simp [matchChunksFuel, this]
  | succ fuel ih =>
    intro l hl
    match l, hl with
    | [], _ =>
      refine ⟨rfl, ?_, ?_⟩
      · intro c hc
        cases hc
      · have : (n - 1) / n = 0 := Nat.div_eq_of_lt (by omega)
        simp [matchChunksFuel, this]
    | x :: xs, hl =>
      have hdrop : ((x :: xs).drop n).length ≤ fuel := by
        rw [List.length_drop]
        simp only [List.length_cons] at hl ⊢
        omega
      obtain ⟨h1, h2, h3⟩ := ih ((x :: xs).drop n) hdrop
      refine ⟨?_, ?_, ?_⟩
      · simp only [matchChunksFuel, List.flatten_cons, h1]
        exact List.take_append_drop n (x :: xs)
      · intro c hc
        simp only [matchChunksFuel, List.mem_cons] at hc
        rcases hc with rfl | hc
        · rw [List.length_take]
          exact Nat.min_le_left _ _
        · exact h2 c hc
      · simp only [matchChunksFuel, List.length_cons, h3, List.length_drop]
        exact ceil_div_step n (xs.length + 1) hn (Nat.succ_pos _)

theorem jsTrim_blank (l : List Char) (h : ∀ c ∈ l, isJsSpace c = true) : jsTrim l = [] := by
  have : l.dropWhile isJsSpace = [] := List.dropWhile_eq_nil_iff.mpr h
  simp [jsTrim, this]

/-- A text without characters above U+FFFF has one code unit for each
character. -/
theorem utf16_length_bmp (l : List Char) (h : ∀ c ∈ l, c.toNat < 65536) :
    (utf16 (String.mk l)).length = l.length := by
  induction l with
  | nil => rfl
  | cons c rest ih =>
    have hc : c.toNat < 65536 := h c (List.mem_cons_self c rest)
    have hrest := ih (fun x hx => h x (List.mem_cons_of_mem c hx))
    simp only [utf16, List.flatMap_cons, List.length_append, List.length_cons] at hrest ⊢
    rw [hrest]
    simp [utf16Units, hc]
    omega

/-- A text with a character that is not white space is not empty after
`trim()`. -/
theorem jsTrim_ne_nil (l : List Char) (h : ∃ c ∈ l, isJsSpace c = false) : jsTrim l ≠ [] := by
  obtain ⟨c, hc, hsp⟩ := h
  have h1 : l.dropWhile isJsSpace ≠ [] := by
    intro hnil
    have := List.dropWhile_eq_nil_iff.mp hnil c hc
    simp [hsp] at this
  have h2 : isJsSpace ((l.dropWhile isJsSpace).head h1) = false :=
    List.head_dropWhile_not isJsSpace l h1
  have h3 : (l.dropWhile isJsSpace).head h1 ∈ (l.dropWhile isJsSpace).reverse :=
    List.mem_reverse.mpr (List.head_mem h1)
  unfold jsTrim
  intro hnil
  have h4 : (l.dropWhile isJsSpace).reverse.dropWhile isJsSpace = [] := by
    simpa using hnil
  have := List.dropWhile_eq_nil_iff.mp h4 _ h3
  simp [h2] at this

/-! ## Lemmas on the output buffer -/

theorem join_cons (a : String) (l : List String) :
    String.join (a :: l) = a ++ String.join l := by
  apply String.ext
  simp [String.data_join]

/-- The chunks that a list of events brings, in order. -/
theorem chunks_cons_arrival (e : SessionEvent) (events : List SessionEvent) (chunk : String)
    (h : e.chunk? = some chunk) :
    String.join ((e :: events).filterMap SessionEvent.chunk?) =
      chunk ++ String.join (events.filterMap SessionEvent.chunk?) := by
  rw [List.filterMap_cons_some h, join_cons]

theorem applyEvent_connected (session : SSHSession) (e : SessionEvent) :
    (session.applyEvent e).connected = session.connected ∧
    (session.applyEvent e).stream.isSome = session.stream.isSome := by
  cases e with
  | data chunk => exact ⟨rfl, rfl⟩
  | stderr chunk => exact ⟨rfl, rfl⟩
  | sendCommand command =>
    simp only [SSHSession.applyEvent, SSHSession.sendCommand]
    cases hc : session.connected <;> cases hs : session.stream <;> simp [SSHSession.log, hc, hs]

theorem applyEvents_connected (events : List SessionEvent) :
    ∀ session : SSHSession,
      (session.applyEvents events).connected = session.connected ∧
      (session.applyEvents events).stream.isSome = session.stream.isSome := by
  induction events with
  | nil => intro session; exact ⟨rfl, rfl⟩
  | cons e rest ih =>
    intro session
    have h1 := applyEvent_connected session e
    have h2 := ih (session.applyEvent e)
    simp only [SSHSession.applyEvents, List.foldl_cons] at h2 ⊢
    exact ⟨h2.1.trans h1.1, h2.2.trans h1.2⟩

/-- Arrivals append to the buffer, and so do all events of a session that is
not connected, whose `sendCommand` throws. -/
theorem applyEvents_buffer (events : List SessionEvent) :
    ∀ session : SSHSession,
      ((∀ e ∈ events, e.isCommand = false) ∨ session.connected = false) →
      (session.applyEvents events).buffer =
        session.buffer ++ String.join (events.filterMap SessionEvent.chunk?) := by
  induction events with
  | nil =>
    intro session _
    simp [SSHSession.applyEvents, String.join]
  | cons e rest ih =>
    intro session h
    have hrest : (∀ e ∈ rest, e.isCommand = false) ∨ (session.applyEvent e).connected = false := by
      rcases h with h | h
      · exact Or.inl (fun x hx => h x (List.mem_cons_of_mem e hx))
      · exact Or.inr ((applyEvent_connected session e).1.trans h)
    have hstep := ih (session.applyEvent e) hrest
    simp only [SSHSession.applyEvents, List.foldl_cons] at hstep ⊢
    rw [hstep]
    cases e with
    | data chunk =>
      rw [chunks_cons_arrival (.data chunk) rest chunk rfl, ← String.append_assoc]
      rfl
    | stderr chunk =>
      rw [chunks_cons_arrival (.stderr chunk) rest chunk rfl, ← String.append_assoc]
      rfl
    | sendCommand command =>
      have hclosed : session.connected = false := by
        rcases h with h | h
        · have := h (.sendCommand command) (List.mem_cons_self _ _)
          simp [SessionEvent.isCommand] at this
        · exact h
      have hsame : session.applyEvent (.sendCommand command) = session := by
        simp [SSHSession.applyEvent, SSHSession.sendCommand, hclosed]
      rw [hsame, List.filterMap_cons_none rfl]

/-- A `sendCommand` on a connected session with a stream empties the buffer. -/
theorem applyEvent_command_buffer (session : SSHSession) (command : String)
    (hconn : session.connected = true) (hstream : session.stream.isSome = true) :
    (session.applyEvent (.sendCommand command)).buffer = "" := by
  obtain ⟨written, hw⟩ := Option.isSome_iff_exists.mp hstream
  simp [SSHSession.applyEvent, SSHSession.sendCommand, hconn, hw, SSHSession.log]

/-! ## Lemmas on the idle timer -/

theorem checkRateLimit_heap (cfg : Config) (s : State) (senderJid : String) (now : Nat) :
    (checkRateLimit cfg s senderJid now).2.heap = s.heap := by
  unfold checkRateLimit
  simp only
  split <;> rfl

theorem status_state (env : Env) (s : State) (chatJid senderJid : String) :
    (commands.status env s chatJid senderJid).state = s := by
  unfold commands.status
  split
  · rfl
  · split <;> rfl

/-! ## Theorems -/

/-- C1: a message whose text starts with `.` and whose sender does not
normalize to the owner gets the access-denied reply, runs no command handler
(whatever the command is) and leaves the whole state as it was, in every
state. -/
theorem handleMessage_not_owner (cfg : Config) (env : Env) (s : State) (message : Message)
    (text : String) (htext : message.text = some text) (hdot : text.data.head? = some '.')
    (hsender : normalizeJid message.senderJid ≠ normalizeJid cfg.ownerNumber) :
    handleMessage cfg env s message =
      { state := s
        effects := [Effect.sendMessage message.remoteJid .accessDenied]
        handler := none } := by
  simp [handleMessage, htext, hdot, isOwner, hsender]

/-- Witness of C1: a stranger asks for `.help` while the bot is in panic
mode. -/
theorem handleMessage_not_owner_witness :
    handleMessage sampleConfig (sampleEnv 5000) { State.initial with panicMode := true }
        (textMessage "628999@s.whatsapp.net" ".help") =
      { state := { State.initial with panicMode := true }
        effects := [Effect.sendMessage "628999@s.whatsapp.net" .accessDenied]
        handler := none } :=
  handleMessage_not_owner sampleConfig (sampleEnv 5000) _
    (textMessage "628999@s.whatsapp.net" ".help") ".help" (by decide) (by decide) (by decide)

/-- C2, as stated, fails: no fingerprint is configured for the host
`constructor` and unverified keys are allowed, and the verifier rejects the
key hash, because the property read finds the member that every object
inherits under that name. -/
theorem hostVerifier_inherited_name_rejects :
    JsMap.get [("vps.example.org", JsVal.str "ab12"), ("old.example.org", JsVal.str "")]
      "constructor" = none ∧
    jsonConfig.allowUnofficial = true ∧
    hostVerifier jsonConfig "constructor" "ab12" = false := by
  decide

/-- C2, amended: with the fingerprint map parsed from the given entries, the
verifier decides for every host and key hash.  A non-empty fingerprint entry
is accepted exactly by the key hash equal to it.  Without an entry, a host
that is not named like an inherited member is accepted exactly when
unverified keys are allowed, so it is rejected when the flag is unset; a
falsy entry (such as the empty text) is treated the same way.  Without an
entry, a host named like an inherited member is rejected whatever the flag
is, and so is a truthy entry that is not a text. -/
theorem hostVerifier_decides (cfg : Config) (entries : List (String × JsVal))
    (hmap : cfg.hostKeySha256Map = jsonObjectRead entries) (host hashedKey : String) :
    (∀ fp : String, JsMap.get entries host = some (.str fp) → fp ≠ "" →
      (hostVerifier cfg host hashedKey = true ↔ hashedKey = fp)) ∧
    (JsMap.get entries host = none → host ∉ inheritedNames →
      (hostVerifier cfg host hashedKey = true ↔ cfg.allowUnofficial = true)) ∧
    (JsMap.get entries host = none → host ∉ inheritedNames → cfg.allowUnofficial = false →
      hostVerifier cfg host hashedKey = false) ∧
    (∀ v : JsVal, JsMap.get entries host = some v → v.truthy = false →
      (hostVerifier cfg host hashedKey = true ↔ cfg.allowUnofficial = true)) ∧
    (JsMap.get entries host = none → host ∈ inheritedNames →
      hostVerifier cfg host hashedKey = false) ∧
    (∀ v : JsVal, JsMap.get entries host = some v → v.truthy = true →
      (∀ fp : String, v ≠ .str fp) → hostVerifier cfg host hashedKey = false) := by
  refine ⟨?_, ?_, ?_, ?_, ?_, ?_⟩
  · intro fp hfp hne
    have hdata : fp.data ≠ [] := by
      intro h
      apply hne
      cases fp
      simp_all
    simp [hostVerifier, hmap, jsonObjectRead, hfp, JsVal.truthy, JsVal.strictEqStr, hdata]
  · intro hnone hnot
    simp [hostVerifier, hmap, jsonObjectRead, hnone, hnot, JsVal.truthy]
  · intro hnone hnot hflag
    simp [hostVerifier, hmap, jsonObjectRead, hnone, hnot, JsVal.truthy, hflag]
  · intro v hv hfalsy
    simp [hostVerifier, hmap, jsonObjectRead, hv, hfalsy]
  · intro hnone hin
    simp [hostVerifier, hmap, jsonObjectRead, hnone, hin, JsVal.truthy, JsVal.strictEqStr]
  · intro v hv htruthy hnostr
    cases v with
    | str fp => exact absurd rfl (hnostr fp)
    | undefined => simp [JsVal.truthy] at htruthy
    | null => simp [JsVal.truthy] at htruthy
    | bool b => simp [hostVerifier, hmap, jsonObjectRead, hv, htruthy, JsVal.strictEqStr]
    | num nz => simp [hostVerifier, hmap, jsonObjectRead, hv, htruthy, JsVal.strictEqStr]
    | obj => simp [hostVerifier, hmap, jsonObjectRead, hv, JsVal.truthy, JsVal.strictEqStr]

/-- Witness of C2: in `jsonConfig` the pinned host, a host without entry, a
host with an empty entry, the host `constructor`, and a host without entry
when unverified keys are not allowed. -/
theorem hostVerifier_decides_witness :
    (hostVerifier jsonConfig "vps.example.org" "ab12" = true ↔ "ab12" = "ab12") ∧
    (hostVerifier jsonConfig "other.example.org" "ab12" = true ↔
      jsonConfig.allowUnofficial = true) ∧
    (hostVerifier jsonConfig "old.example.org" "ab12" = true ↔
      jsonConfig.allowUnofficial = true) ∧
    hostVerifier jsonConfig "constructor" "ab12" = false ∧
    hostVerifier { jsonConfig with allowUnofficial := false } "other.example.org" "ab12"
      = false :=
  ⟨(hostVerifier_decides jsonConfig _ rfl "vps.example.org" "ab12").1 "ab12" (by decide)
      (by decide),
   (hostVerifier_decides jsonConfig _ rfl "other.example.org" "ab12").2.1 (by decide)
      (by decide),
   (hostVerifier_decides jsonConfig _ rfl "old.example.org" "ab12").2.2.2.1 (.str "")
      (by decide) (by decide),
   (hostVerifier_decides jsonConfig _ rfl "constructor" "ab12").2.2.2.2.1 (by decide)
      (by decide),
   (hostVerifier_decides { jsonConfig with allowUnofficial := false } _ rfl
      "other.example.org" "ab12").2.2.1 (by decide) (by decide) rfl⟩

/-- C3: with an empty whitelist every host is allowed; with a non-empty one a
host is allowed exactly when it is equal to an entry, so a host that only
contains an entry (with text before or after it) and is not itself an entry
is rejected. -/
theorem isHostWhitelisted_exact (cfg : Config) (host : String) :
    (cfg.hostWhitelist = [] → isHostWhitelisted cfg host = true) ∧
    (cfg.hostWhitelist ≠ [] → (isHostWhitelisted cfg host = true ↔ host ∈ cfg.hostWhitelist)) ∧
    (cfg.hostWhitelist ≠ [] → ∀ allowed ∈ cfg.hostWhitelist, ∀ before after : String,
      before ++ allowed ++ after ∉ cfg.hostWhitelist →
        isHostWhitelisted cfg (before ++ allowed ++ after) = false) := by
  have key : ∀ h : String, cfg.hostWhitelist ≠ [] →
      (isHostWhitelisted cfg h = true ↔ h ∈ cfg.hostWhitelist) := by
    intro h hne
    have hlen : cfg.hostWhitelist.length ≠ 0 := by
      simpa [List.length_eq_zero] using hne
    simp [isHostWhitelisted, hlen, List.any_eq_true]
  refine ⟨?_, key host, ?_⟩
  · intro h
    simp [isHostWhitelisted, h]
  · intro hne allowed _ before after hnot
    have := key (before ++ allowed ++ after) hne
    cases hw : isHostWhitelisted cfg (before ++ allowed ++ after)
    · rfl
    · exact absurd (this.mp hw) hnot

/-- Witness of C3: a host that extends a whitelisted entry is rejected, and
the entry itself is allowed. -/
theorem isHostWhitelisted_exact_witness :
    (isHostWhitelisted sampleConfig "vps.example.org" = true ↔
      "vps.example.org" ∈ sampleConfig.hostWhitelist) ∧
    isHostWhitelisted sampleConfig ("evil-" ++ "vps.example.org" ++ ".attacker.net") = false ∧
    isHostWhitelisted { sampleConfig with hostWhitelist := [] } "anything" = true :=
  ⟨(isHostWhitelisted_exact sampleConfig "vps.example.org").2.1 (by decide),
   (isHostWhitelisted_exact sampleConfig "vps.example.org").2.2 (by decide)
     "vps.example.org" (by decide) "evil-" ".attacker.net" (by decide),
   (isHostWhitelisted_exact { sampleConfig with hostWhitelist := [] } "anything").1 rfl⟩

/-- C4: when the first argument of `connect` is not the configured PIN (or is
missing) the handler only replies with a rejection, the format notice for
fewer than two arguments and the wrong-PIN notice otherwise, and leaves the
whole state, the pending confirmations included, as it was, whatever the
other arguments are. -/
theorem connect_wrong_pin (cfg : Config) (s : State) (chatJid senderJid : String)
    (args : List String) (hpin : args.head? ≠ some cfg.ownerPin) :
    commands.connect cfg s chatJid senderJid args =
      { state := s
        effects := [Effect.sendMessage chatJid
          (if args.length < 2 then Reply.connectUsage else Reply.wrongPin)]
        thrown := none } := by
  match args with
  | [] => rfl
  | [_] => rfl
  | pin :: host :: rest =>
    have h : pin ≠ cfg.ownerPin := by simpa using hpin
    have hlen : ¬ (rest.length + 1 + 1 < 2) := by omega
    simp [commands.connect, h, replyOnly, hlen]

/-- Witness of C4: a wrong PIN for a whitelisted host, with a confirmation
already pending. -/
theorem connect_wrong_pin_witness :
    commands.connect sampleConfig
        { State.initial with
          pendingConfirmations := [("628123@s.whatsapp.net", Pending.mk "a" "root" none "c")] }
        "chat" "628123@s.whatsapp.net" ["43210", "vps.example.org", "admin", "2222"] =
      { state :=
          { State.initial with
            pendingConfirmations := [("628123@s.whatsapp.net", Pending.mk "a" "root" none "c")] }
        effects := [Effect.sendMessage "chat"
          (if ["43210", "vps.example.org", "admin", "2222"].length < 2 then Reply.connectUsage
            else Reply.wrongPin)]
        thrown := none } :=
  connect_wrong_pin sampleConfig _ "chat" "628123@s.whatsapp.net"
    ["43210", "vps.example.org", "admin", "2222"] (by decide)

/-- C5: without a pending confirmation for the sender `confirm` replies with
an error and changes nothing.  With one, the entry is removed whatever the
token is, a connection is attempted exactly when the token is `YA` in some
casing, and for any other token the handler only reports the cancellation:
no session object is made and the registry and the current-session pointers
stay as they were. -/
theorem confirm_token (cfg : Config) (env : Env) (s : State) (chatJid senderJid : String)
    (args : List String) :
    (JsMap.get s.pendingConfirmations senderJid = none →
      commands.confirm cfg env s chatJid senderJid args =
        { state := s, effects := [Effect.sendMessage chatJid .noPending], thrown := none }) ∧
    (∀ pending : Pending, JsMap.get s.pendingConfirmations senderJid = some pending →
      (commands.confirm cfg env s chatJid senderJid args).state.pendingConfirmations =
          JsMap.delete s.pendingConfirmations senderJid ∧
      JsMap.get (commands.confirm cfg env s chatJid senderJid args).state.pendingConfirmations
          senderJid = none ∧
      ((∃ host user port, Effect.connect host user port ∈
            (commands.confirm cfg env s chatJid senderJid args).effects) ↔
          args.head? ∈ [some "YA", some "Ya", some "yA", some "ya"]) ∧
      (args.head? ∉ [some "YA", some "Ya", some "yA", some "ya"] →
        commands.confirm cfg env s chatJid senderJid args =
          { state :=
              { s with pendingConfirmations := JsMap.delete s.pendingConfirmations senderJid }
            effects := [Effect.sendMessage chatJid .confirmCancelled]
            thrown := none })) := by
  have htok : (args.head?.map toUpperCase = some "YA") ↔
      args.head? ∈ [some "YA", some "Ya", some "yA", some "ya"] := by
    cases args.head? with
    | none => simp
    | some t => simpa using toUpperCase_eq_YA t
  refine ⟨?_, ?_⟩
  · intro h
    simp [commands.confirm, h, replyOnly]
  · intro pending h
    by_cases hya : args.head?.map toUpperCase = some "YA"
    · have hmem := htok.mp hya
      have hstate : (commands.confirm cfg env s chatJid senderJid args).state.pendingConfirmations
          = JsMap.delete s.pendingConfirmations senderJid := by
        simp only [commands.confirm, h, hya, ne_eq, not_true_eq_false, ite_false]
        split <;> rfl
      refine ⟨hstate, ?_, ?_, ?_⟩
      · rw [hstate]
        exact JsMap.get_delete_self _ _
      · refine ⟨fun _ => hmem, fun _ => ⟨pending.host, pending.user, pending.port, ?_⟩⟩
        simp only [commands.confirm, h, hya, ne_eq, not_true_eq_false, ite_false]
        split <;> simp
      · intro hnot
        exact absurd hmem hnot
    · have hnot : args.head? ∉ [some "YA", some "Ya", some "yA", some "ya"] :=
        fun hmem => hya (htok.mpr hmem)
      have hres : commands.confirm cfg env s chatJid senderJid args =
          { state :=
              { s with pendingConfirmations := JsMap.delete s.pendingConfirmations senderJid }
            effects := [Effect.sendMessage chatJid .confirmCancelled]
            thrown := none } := by
        simp [commands.confirm, h, hya, replyOnly]
      refine ⟨?_, ?_, ?_, fun _ => hres⟩
      · rw [hres]
      · rw [hres]
        exact JsMap.get_delete_self _ _
      · rw [hres]
        constructor
        · rintro ⟨host, user, port, hmem⟩
          simp at hmem
        · intro hmem
          exact absurd hmem hnot

/-- Witness of C5: no pending entry for one sender; a pending entry confirmed
with `Ya`; a pending entry answered with another word. -/
theorem confirm_token_witness :
    commands.confirm sampleConfig (sampleEnv 9000) pendingState "chat" "stranger" ["YA"] =
        { state := pendingState, effects := [Effect.sendMessage "chat" .noPending],
          thrown := none } ∧
    ((∃ host user port, Effect.connect host user port ∈
        (commands.confirm sampleConfig (sampleEnv 9000) pendingState "chat"
          "628123@s.whatsapp.net" ["Ya"]).effects) ↔
      ["Ya"].head? ∈ [some "YA", some "Ya", some "yA", some "ya"]) ∧
    commands.confirm sampleConfig (sampleEnv 9000) pendingState "chat"
        "628123@s.whatsapp.net" ["yes"] =
      { state :=
          { pendingState with
            pendingConfirmations :=
              JsMap.delete pendingState.pendingConfirmations "628123@s.whatsapp.net" }
        effects := [Effect.sendMessage "chat" .confirmCancelled]
        thrown := none } :=
  ⟨(confirm_token sampleConfig (sampleEnv 9000) pendingState "chat" "stranger" ["YA"]).1
      (by decide),
   ((confirm_token sampleConfig (sampleEnv 9000) pendingState "chat" "628123@s.whatsapp.net"
      ["Ya"]).2 (Pending.mk "vps.example.org" "root" (some 22) "chat") (by decide)).2.2.1,
   ((confirm_token sampleConfig (sampleEnv 9000) pendingState "chat" "628123@s.whatsapp.net"
      ["yes"]).2 (Pending.mk "vps.example.org" "root" (some 22) "chat") (by decide)).2.2.2
      (by decide)⟩

/-- C6: from every state, after `panic` the panic flag is set, the registry,
the current-session pointers and the pending confirmations are empty, every
session object is still there and each one the registry held is no longer
connected; a following `unpanic` changes the panic flag only, so the three
maps stay empty and no session comes back. -/
theorem panic_then_unpanic (s : State) (chatJid chatJid2 : String) :
    (commands.panic s chatJid).state.panicMode = true ∧
    (commands.panic s chatJid).state.activeSessions = [] ∧
    (commands.panic s chatJid).state.currentSession = [] ∧
    (commands.panic s chatJid).state.pendingConfirmations = [] ∧
    (commands.panic s chatJid).state.heap.length = s.heap.length ∧
    (∀ (host : String) (ref : Nat) (session : SSHSession), (host, ref) ∈ s.activeSessions →
      (commands.panic s chatJid).state.heap[ref]? = some session →
        session.connected = false) ∧
    (commands.unpanic (commands.panic s chatJid).state chatJid2).state =
      { (commands.panic s chatJid).state with panicMode := false } ∧
    (commands.unpanic (commands.panic s chatJid).state chatJid2).state.activeSessions = [] ∧
    (commands.unpanic (commands.panic s chatJid).state chatJid2).state.currentSession = [] ∧
    (commands.unpanic (commands.panic s chatJid).state chatJid2).state.pendingConfirmations
      = [] := by
  refine ⟨rfl, rfl, rfl, rfl, ?_, ?_, rfl, rfl, rfl, rfl⟩
  · exact closeAll_length s.activeSessions s.heap
  · intro host ref session hmem hget
    exact closeAll_closes s.activeSessions s.heap host ref hmem session hget

/-- Witness of C6: the one registered session of `connectedState` is closed
by `panic`. -/
theorem panic_then_unpanic_witness :
    ("vps.example.org", 0) ∈ connectedState.activeSessions ∧
    (commands.panic connectedState "chat").state.heap[0]? = some closedSession ∧
    closedSession.connected = false :=
  ⟨by decide, by decide,
    (panic_then_unpanic connectedState "chat" "chat").2.2.2.2.2.1 "vps.example.org" 0
      closedSession (by decide) (by decide)⟩

/-- C7, as stated, fails: in panic mode the owner's message `.UNPANIC`, whose
parsed command is `unpanic`, is rejected with the panic notice and the unlock
handler does not run. -/
theorem panic_gate_rejects_upper_case :
    (parseCommand ".UNPANIC").1 = "unpanic" ∧
    resolveAlias (parseCommand ".UNPANIC").1 = "unpanic" ∧
    handleMessage sampleConfig (sampleEnv 5000) { State.initial with panicMode := true }
        (textMessage "628123@s.whatsapp.net" ".UNPANIC") =
      { state := { State.initial with panicMode := true }
        effects := [Effect.sendMessage "628123@s.whatsapp.net" .panicNotice]
        handler := none } := by
  decide

/-- C7, amended: while the panic flag is set, a message of the owner that
starts with `.` is rejected with the panic notice exactly when its text is
not the exact text `.unpanic`; such a rejection changes nothing and runs no
handler, and the text `.unpanic`, when the rate limit lets it pass, runs the
unlock handler, which clears the flag. -/
theorem panic_gate_exact (cfg : Config) (env : Env) (s : State) (message : Message)
    (text : String) (hpanic : s.panicMode = true) (htext : message.text = some text)
    (hdot : text.data.head? = some '.') (howner : isOwner cfg message.senderJid = true) :
    ((handleMessage cfg env s message).effects =
        [Effect.sendMessage message.remoteJid .panicNotice] ↔ text ≠ ".unpanic") ∧
    (text ≠ ".unpanic" →
      handleMessage cfg env s message =
        { state := s, effects := [Effect.sendMessage message.remoteJid .panicNotice],
          handler := none }) ∧
    (text = ".unpanic" → (checkRateLimit cfg s message.senderJid env.now).1 = true →
      (handleMessage cfg env s message).handler = some "unpanic" ∧
      (handleMessage cfg env s message).state.panicMode = false ∧
      (handleMessage cfg env s message).effects =
        [Effect.sendMessage message.remoteJid .panicCleared]) := by
  have hrej : text ≠ ".unpanic" →
      handleMessage cfg env s message =
        { state := s, effects := [Effect.sendMessage message.remoteJid .panicNotice],
          handler := none } := by
    intro hne
    simp [handleMessage, htext, hdot, howner, hpanic, hne]
  have hparse : parseCommand ".unpanic" = ("unpanic", []) := by decide
  refine ⟨⟨?_, fun hne => by rw [hrej hne]⟩, hrej, ?_⟩
  · intro heff hunp
    subst hunp
    cases hr : (checkRateLimit cfg s message.senderJid env.now).1 <;>
      simp [handleMessage, htext, howner, hpanic, hr, hparse, resolveAlias, runCommand,
        commands.unpanic, replyOnly] at heff
  · intro hunp hr
    subst hunp
    simp [handleMessage, htext, howner, hpanic, hr, hparse, resolveAlias, runCommand,
      commands.unpanic, replyOnly]

/-- Witness of C7: in panic mode the owner sends `.status`. -/
theorem panic_gate_exact_witness :
    handleMessage sampleConfig (sampleEnv 5000) { State.initial with panicMode := true }
        (textMessage "628123@s.whatsapp.net" ".status") =
      { state := { State.initial with panicMode := true }
        effects := [Effect.sendMessage "628123@s.whatsapp.net" .panicNotice]
        handler := none } :=
  (panic_gate_exact sampleConfig (sampleEnv 5000) { State.initial with panicMode := true }
    (textMessage "628123@s.whatsapp.net" ".status") ".status" rfl (by decide) (by decide)
    (by decide)).2.1 (by decide)

/-- C8, as stated, fails: two calls by one identity, sent from two device ids
that normalize to the same id, are both accepted although they are 1 ms
apart and the interval is 1200 ms. -/
theorem checkRateLimit_two_device_ids :
    normalizeJid "628123:1@s.whatsapp.net" = normalizeJid "628123:2@s.whatsapp.net" ∧
    (checkRateLimit sampleConfig State.initial "628123:1@s.whatsapp.net" 5000).1 = true ∧
    (checkRateLimit sampleConfig
      (checkRateLimit sampleConfig State.initial "628123:1@s.whatsapp.net" 5000).2
      "628123:2@s.whatsapp.net" 5001).1 = true ∧
    ((5001 : Nat) : Int) - ((5000 : Nat) : Int) < sampleConfig.rateLimitMs := by
  decide

/-- C8, amended: the calls are those of one sender id, as it arrives.  A
rejected call of `checkRateLimit` leaves the state as it was and an accepted
call sets the sender's ledger entry to the current time and nothing else; a
sender without ledger entry is accepted once the clock is past the interval;
in a run of calls by one sender id, a call that follows an accepted call
with only rejected calls in between is rejected exactly when less than the
interval has passed since that accepted call; and with non-decreasing clock
readings any two accepted calls are at least one interval apart. -/
theorem checkRateLimit_window (cfg : Config) (senderJid : String) (s : State)
    (times : List Nat) (hsorted : times.Pairwise (· ≤ ·)) :
    (∀ (st : State) (now : Nat),
      ((checkRateLimit cfg st senderJid now).1 = false →
        (checkRateLimit cfg st senderJid now).2 = st) ∧
      ((checkRateLimit cfg st senderJid now).1 = true →
        (checkRateLimit cfg st senderJid now).2 =
            { st with lastCommandTime := JsMap.set st.lastCommandTime senderJid now } ∧
        JsMap.get (checkRateLimit cfg st senderJid now).2.lastCommandTime senderJid
          = some now)) ∧
    (∀ (st : State) (now : Nat), JsMap.get st.lastCommandTime senderJid = none →
      cfg.rateLimitMs ≤ (now : Int) → (checkRateLimit cfg st senderJid now).1 = true) ∧
    (∀ (i j ti tj : Nat), i < j → times[i]? = some ti → times[j]? = some tj →
      (rateLimitRun cfg senderJid s times).1[i]? = some true →
      (∀ k, i < k → k < j → (rateLimitRun cfg senderJid s times).1[k]? = some false) →
      ((rateLimitRun cfg senderJid s times).1[j]? = some false ↔
        (tj : Int) - (ti : Int) < cfg.rateLimitMs)) ∧
    (∀ (i j ti tj : Nat), i < j → times[i]? = some ti → times[j]? = some tj →
      (rateLimitRun cfg senderJid s times).1[i]? = some true →
      (rateLimitRun cfg senderJid s times).1[j]? = some true →
      cfg.rateLimitMs ≤ (tj : Int) - (ti : Int)) := by
  refine ⟨?_, ?_, ?_, ?_⟩
  · intro st now
    refine ⟨checkRateLimit_rejected_state cfg st senderJid now, fun h => ?_⟩
    have hst := checkRateLimit_accepted_state cfg st senderJid now h
    refine ⟨hst, ?_⟩
    rw [hst]
    exact JsMap.get_set_self _ _ _
  · intro st now hnone hle
    apply (checkRateLimit_accepts_iff cfg st senderJid now).mpr
    simp only [lastTime, hnone, Option.getD_none]
    simpa using hle
  · intro i j ti tj hij hi hj hri hbetween
    exact rateLimitRun_next cfg senderJid times s i j ti tj hij hi hj hri hbetween
  · intro i j ti tj hij hi hj hri hrj
    exact rateLimitRun_spacing cfg senderJid times s i j ti tj hsorted hij hi hj hri hrj

/-- Witness of C8: four calls of the owner with an interval of 1200 ms; the
second comes too early, the third exactly one interval after the first. -/
theorem checkRateLimit_window_witness :
    (rateLimitRun sampleConfig "628123@s.whatsapp.net" State.initial
        [5000, 5500, 6200, 7500]).1 = [true, false, true, true] ∧
    ((rateLimitRun sampleConfig "628123@s.whatsapp.net" State.initial
        [5000, 5500, 6200, 7500]).1[1]? = some false ↔
      ((5500 : Nat) : Int) - ((5000 : Nat) : Int) < sampleConfig.rateLimitMs) ∧
    sampleConfig.rateLimitMs ≤ ((6200 : Nat) : Int) - ((5000 : Nat) : Int) :=
  ⟨by decide,
    (checkRateLimit_window sampleConfig "628123@s.whatsapp.net" State.initial
      [5000, 5500, 6200, 7500] (by decide)).2.2.1 0 1 5000 5500 (by decide) (by decide)
      (by decide) (by decide) (by intro k h1 h2; omega),
    (checkRateLimit_window sampleConfig "628123@s.whatsapp.net" State.initial
      [5000, 5500, 6200, 7500] (by decide)).2.2.2 0 2 5000 6200 (by decide) (by decide)
      (by decide) (by decide) (by decide)⟩

/-- C9, as stated, fails: a drained output of 3501 blanks is longer than the
maximum chunk size, and the streaming code sends nothing for it. -/
theorem streamOutput_blank_sends_nothing :
    (utf16 (String.mk (List.replicate 3501 ' '))).length = 3501 ∧
    maxChunk < (utf16 (String.mk (List.replicate 3501 ' '))).length ∧
    streamOutput "chat" (String.mk (List.replicate 3501 ' ')) = [] := by
  have hblank : jsTrim (List.replicate 3501 ' ') = [] := by
    apply jsTrim_blank
    intro c hc
    rw [List.eq_of_mem_replicate hc]
    decide
  have hchunks : outputChunks (String.mk (List.replicate 3501 ' ')) = [] := by
    unfold outputChunks
    exact if_neg (fun h => h hblank)
  have hlen : (utf16 (String.mk (List.replicate 3501 ' '))).length = 3501 := by
    rw [utf16_length_bmp]
    · exact List.length_replicate _ _
    · intro c hc
      rw [List.eq_of_mem_replicate hc]
      decide
  refine ⟨hlen, ?_, ?_⟩
  · rw [hlen]
    decide
  · unfold streamOutput
    rw [hchunks]
    rfl

/-- C9, amended: for a drained output that is blank (every character is white
space, so it is empty after `trim()`) the streaming code sends nothing; for
every other drained output it sends one message for each chunk, in order,
where the chunks are `⌈len / 3500⌉` many for the length `len` in UTF-16 code
units, each has at most 3500 code units, and put together they are the
drained output. -/
theorem streamOutput_chunks (chatJid : String) (output : String) :
    ((∀ c ∈ output.data, isJsSpace c = true) → streamOutput chatJid output = []) ∧
    ((∃ c ∈ output.data, isJsSpace c = false) →
      streamOutput chatJid output =
        (outputChunks output).map
          (fun chunk => Effect.sendMessage chatJid (.outputChunk chunk)) ∧
      (outputChunks output).length = ((utf16 output).length + 3499) / 3500 ∧
      (∀ chunk ∈ outputChunks output, chunk.length ≤ 3500) ∧
      (outputChunks output).flatten = utf16 output) := by
  constructor
  · intro hblank
    have hnil : jsTrim output.data = [] := jsTrim_blank output.data hblank
    have hchunks : outputChunks output = [] := by
      unfold outputChunks
      exact if_neg (fun h => h hnil)
    unfold streamOutput
    rw [hchunks]
    rfl
  · intro hchar
    have hne : jsTrim output.data ≠ [] := jsTrim_ne_nil output.data hchar
    obtain ⟨h1, h2, h3⟩ :=
      matchChunksFuel_spec maxChunk (by decide) (utf16 output).length (utf16 output)
        (Nat.le_refl _)
    have hout : outputChunks output =
        matchChunksFuel maxChunk (utf16 output).length (utf16 output) := by
      unfold outputChunks matchChunks
      exact if_pos hne
    refine ⟨rfl, ?_, ?_, ?_⟩
    · rw [hout, h3]
      rfl
    · intro chunk hc
      rw [hout] at hc
      exact h2 chunk hc
    · rw [hout, h1]

/-- Witness of C9: an output of 3501 blanks, and an output one character
longer than the maximum chunk size. -/
theorem streamOutput_chunks_witness :
    streamOutput "chat" (String.mk (List.replicate 3501 ' ')) = [] ∧
    (outputChunks longOutput).length = ((utf16 longOutput).length + 3499) / 3500 ∧
    (outputChunks longOutput).flatten = utf16 longOutput :=
  ⟨(streamOutput_chunks "chat" (String.mk (List.replicate 3501 ' '))).1
      (fun c hc => by
        have hmem : c ∈ List.replicate 3501 ' ' := hc
        rw [List.eq_of_mem_replicate hmem]
        decide),
   ((streamOutput_chunks "chat" longOutput).2
      ⟨'a', List.mem_cons_self _ _, by decide⟩).2.1,
   ((streamOutput_chunks "chat" longOutput).2
      ⟨'a', List.mem_cons_self _ _, by decide⟩).2.2.2⟩

/-- C10 at the failing input: both sender ids normalize to the owner; after
the first device closes the session the second device still points at the
host, which is no longer in the registry, and its `status` then throws. -/
theorem close_leaves_dangling_pointer :
    isOwner sampleConfig "628123:1@s.whatsapp.net" = true ∧
    isOwner sampleConfig "628123:2@s.whatsapp.net" = true ∧
    JsMap.get twoDeviceState.currentSession "628123:2@s.whatsapp.net"
      = some "vps.example.org" ∧
    JsMap.has twoDeviceState.activeSessions "vps.example.org" = false ∧
    (commands.status (sampleEnv 9000) twoDeviceState "chat" "628123:2@s.whatsapp.net").thrown
      = some "Cannot read properties of undefined (reading 'startTime')" := by
  decide

/-- C11, as stated, fails: two sender ids of the owner normalize to the same
identity, the first stores a pending confirmation with `.connect`, and the
`.confirm` that the second sends one millisecond later is neither
rate-limited nor does it find the pending confirmation, which stays stored
under the first sender id. -/
theorem second_device_not_gated :
    normalizeJid "628123:1@s.whatsapp.net" = normalizeJid "628123:2@s.whatsapp.net" ∧
    (handleMessage sampleConfig (sampleEnv 5000) State.initial
      (textMessage "628123:1@s.whatsapp.net" ".connect 4321 vps.example.org")).handler
        = some "connect" ∧
    (handleMessage sampleConfig (sampleEnv 5001)
      (handleMessage sampleConfig (sampleEnv 5000) State.initial
        (textMessage "628123:1@s.whatsapp.net" ".connect 4321 vps.example.org")).state
      (textMessage "628123:2@s.whatsapp.net" ".confirm YA")).handler = some "confirm" ∧
    (handleMessage sampleConfig (sampleEnv 5001)
      (handleMessage sampleConfig (sampleEnv 5000) State.initial
        (textMessage "628123:1@s.whatsapp.net" ".connect 4321 vps.example.org")).state
      (textMessage "628123:2@s.whatsapp.net" ".confirm YA")).effects
        = [Effect.sendMessage "628123:2@s.whatsapp.net" .noPending] ∧
    JsMap.get (handleMessage sampleConfig (sampleEnv 5001)
      (handleMessage sampleConfig (sampleEnv 5000) State.initial
        (textMessage "628123:1@s.whatsapp.net" ".connect 4321 vps.example.org")).state
      (textMessage "628123:2@s.whatsapp.net" ".confirm YA")).state.pendingConfirmations
        "628123:1@s.whatsapp.net"
      = some (Pending.mk "vps.example.org" "root" (some 22) "628123:1@s.whatsapp.net") := by
  decide

/-- C11, amended: the rate-limit ledger and the pending confirmations are
keyed by the sender id as it arrives.  After a call accepted from `a`, a call
from the same id less than one interval later is rejected, and a call from
another id `b` is decided as if the call from `a` had not happened.  A
`.connect` from `a` with the right PIN and an allowed host stores the pending
confirmation under `a` and leaves the entry of another id `b` as it was, so a
`.confirm` from `b` without an entry of its own gets the no-pending error and
changes nothing. -/
theorem gating_keyed_by_sender_id (cfg : Config) (env : Env) (s : State)
    (a b chatJid : String) (now later : Nat) (host : String) (rest args : List String)
    (haccept : (checkRateLimit cfg s a now).1 = true)
    (hallowed : isHostWhitelisted cfg host = true) :
    ((later : Int) - (now : Int) < cfg.rateLimitMs →
      (checkRateLimit cfg (checkRateLimit cfg s a now).2 a later).1 = false) ∧
    (a ≠ b →
      (checkRateLimit cfg (checkRateLimit cfg s a now).2 b later).1 =
        (checkRateLimit cfg s b later).1) ∧
    JsMap.get
        (commands.connect cfg s chatJid a (cfg.ownerPin :: host :: rest)).state.pendingConfirmations
        a =
      some (Pending.mk host (rest.head?.getD "root")
        (parseInt ((rest.drop 1).head?.getD "22")) chatJid) ∧
    (a ≠ b →
      JsMap.get
          (commands.connect cfg s chatJid a
            (cfg.ownerPin :: host :: rest)).state.pendingConfirmations b =
        JsMap.get s.pendingConfirmations b) ∧
    (a ≠ b → JsMap.get s.pendingConfirmations b = none →
      commands.confirm cfg env
          (commands.connect cfg s chatJid a (cfg.ownerPin :: host :: rest)).state chatJid b args =
        { state := (commands.connect cfg s chatJid a (cfg.ownerPin :: host :: rest)).state
          effects := [Effect.sendMessage chatJid .noPending]
          thrown := none }) := by
  have hconn : (commands.connect cfg s chatJid a
      (cfg.ownerPin :: host :: rest)).state.pendingConfirmations =
      JsMap.set s.pendingConfirmations a
        (Pending.mk host (rest.head?.getD "root")
          (parseInt ((rest.drop 1).head?.getD "22")) chatJid) := by
    simp [commands.connect, hallowed, replyOnly]
  have hother : a ≠ b →
      JsMap.get (commands.connect cfg s chatJid a
        (cfg.ownerPin :: host :: rest)).state.pendingConfirmations b =
      JsMap.get s.pendingConfirmations b := by
    intro hne
    rw [hconn]
    exact JsMap.get_set_other _ a b _ (Ne.symm hne)
  refine ⟨?_, ?_, ?_, hother, ?_⟩
  · intro hlt
    apply (checkRateLimit_rejects_iff cfg _ a later).mpr
    rw [lastTime_after, if_pos haccept]
    exact hlt
  · intro hne
    apply checkRateLimit_result_congr
    rw [checkRateLimit_accepted_state cfg s a now haccept]
    simp only [lastTime]
    rw [JsMap.get_set_other _ a b _ (Ne.symm hne)]
  · rw [hconn]
    exact JsMap.get_set_self _ _ _
  · intro hne hnone
    have hget := (hother hne).trans hnone
    simp [commands.confirm, hget, replyOnly]

/-- Witness of C11: the owner's first device is accepted at 5000 ms and
connects; its own next call at 5001 ms is rejected, the second device is not
affected. -/
theorem gating_keyed_by_sender_id_witness :
    (checkRateLimit sampleConfig
      (checkRateLimit sampleConfig State.initial "628123:1@s.whatsapp.net" 5000).2
      "628123:1@s.whatsapp.net" 5001).1 = false ∧
    (checkRateLimit sampleConfig
      (checkRateLimit sampleConfig State.initial "628123:1@s.whatsapp.net" 5000).2
      "628123:2@s.whatsapp.net" 5001).1 =
        (checkRateLimit sampleConfig State.initial "628123:2@s.whatsapp.net" 5001).1 ∧
    commands.confirm sampleConfig (sampleEnv 5001)
        (commands.connect sampleConfig State.initial "chat" "628123:1@s.whatsapp.net"
          (sampleConfig.ownerPin :: "vps.example.org" :: [])).state
        "chat" "628123:2@s.whatsapp.net" ["YA"] =
      { state := (commands.connect sampleConfig State.initial "chat" "628123:1@s.whatsapp.net"
          (sampleConfig.ownerPin :: "vps.example.org" :: [])).state
        effects := [Effect.sendMessage "chat" .noPending]
        thrown := none } :=
  ⟨(gating_keyed_by_sender_id sampleConfig (sampleEnv 5001) State.initial
      "628123:1@s.whatsapp.net" "628123:2@s.whatsapp.net" "chat" 5000 5001 "vps.example.org" []
      ["YA"] (by decide) (by decide)).1 (by decide),
   (gating_keyed_by_sender_id sampleConfig (sampleEnv 5001) State.initial
      "628123:1@s.whatsapp.net" "628123:2@s.whatsapp.net" "chat" 5000 5001 "vps.example.org" []
      ["YA"] (by decide) (by decide)).2.1 (by decide),
   (gating_keyed_by_sender_id sampleConfig (sampleEnv 5001) State.initial
      "628123:1@s.whatsapp.net" "628123:2@s.whatsapp.net" "chat" 5000 5001 "vps.example.org" []
      ["YA"] (by decide) (by decide)).2.2.2.2 (by decide) (by decide)⟩

/-- C12: for a target host (a non-empty argument, as every parsed argument
is) that is absent from the registry, `switch` replies with the no-such-session
error and leaves the whole state, every pointer included, as it was; for a
host that is present it sets the sender's pointer to that host and changes
nothing else: the pointers of other senders, the registry and the session
objects (idle timers included) stay as they were. -/
theorem switch_pointer (s : State) (chatJid senderJid targetHost : String)
    (rest : List String) (hhost : targetHost ≠ "") :
    (JsMap.get s.activeSessions targetHost = none →
      commands.switch s chatJid senderJid (targetHost :: rest) =
        { state := s
          effects := [Effect.sendMessage chatJid (.noSuchSession targetHost)]
          thrown := none }) ∧
    (∀ (ref : Nat) (session : SSHSession),
      JsMap.get s.activeSessions targetHost = some ref → s.heap[ref]? = some session →
      commands.switch s chatJid senderJid (targetHost :: rest) =
        { state := { s with currentSession := JsMap.set s.currentSession senderJid targetHost }
          effects := [Effect.sendMessage chatJid (.switched targetHost)]
          thrown := none } ∧
      JsMap.get (commands.switch s chatJid senderJid (targetHost :: rest)).state.currentSession
        senderJid = some targetHost ∧
      (∀ other : String, other ≠ senderJid →
        JsMap.get (commands.switch s chatJid senderJid (targetHost :: rest)).state.currentSession
          other = JsMap.get s.currentSession other)) ∧
    (∀ (text : String), ∀ a ∈ (parseCommand text).2, a ≠ "") := by
  have htruthy : strTruthy targetHost = true := by
    have : targetHost.data ≠ [] := by
      intro h
      apply hhost
      cases targetHost
      simp_all
    simp [strTruthy, this]
  refine ⟨?_, ?_, parseCommand_args_ne_empty⟩
  · intro habsent
    simp [commands.switch, Option.filter, htruthy, State.session?, habsent, replyOnly]
  · intro ref session href hobj
    have hres : commands.switch s chatJid senderJid (targetHost :: rest) =
        { state := { s with currentSession := JsMap.set s.currentSession senderJid targetHost }
          effects := [Effect.sendMessage chatJid (.switched targetHost)]
          thrown := none } := by
      simp [commands.switch, Option.filter, htruthy, State.session?, href, hobj, replyOnly]
    refine ⟨hres, ?_, ?_⟩
    · rw [hres]
      exact JsMap.get_set_self _ _ _
    · intro other hne
      rw [hres]
      exact JsMap.get_set_other _ senderJid other _ hne

/-- Witness of C12: in `connectedState` a switch to an unknown host changes
nothing, and a second sender can switch to the registered host. -/
theorem switch_pointer_witness :
    commands.switch connectedState "chat" "628123@s.whatsapp.net" ["other.example.org"] =
      { state := connectedState
        effects := [Effect.sendMessage "chat" (.noSuchSession "other.example.org")]
        thrown := none } ∧
    JsMap.get (commands.switch connectedState "chat" "628123:2@s.whatsapp.net"
      ["vps.example.org"]).state.currentSession "628123:2@s.whatsapp.net"
        = some "vps.example.org" :=
  ⟨(switch_pointer connectedState "chat" "628123@s.whatsapp.net" "other.example.org" []
      (by decide)).1 (by decide),
   ((switch_pointer connectedState "chat" "628123:2@s.whatsapp.net" "vps.example.org" []
      (by decide)).2.1 0
      openSession (by decide) (by decide)).2.1⟩

/-- C13, as stated, fails: after a drain, the chunk `a` arrives, a command is
sent and the chunk `b` arrives; the next drain returns `b` only, not the two
chunks that arrived since the previous drain. -/
theorem drain_loses_output_before_command :
    ((openSession.getBufferedOutput.2.applyEvents
      [.data "a", .sendCommand "ls", .data "b"]).getBufferedOutput.1 = "b") ∧
    String.join
      ([SessionEvent.data "a", .sendCommand "ls", .data "b"].filterMap SessionEvent.chunk?)
        = "ab" := by
  decide

/-- C13, amended: `getBufferedOutput` returns the buffer and leaves it empty,
so a drain right after a drain returns the empty text.  Between two drains,
if no command is sent the second drain returns all chunks that arrived on the
two streams, in order; a `sendCommand` on a connected session discards what
arrived before it, so the second drain returns the chunks that arrived after
the last command; on a session that is not connected `sendCommand` throws and
discards nothing. -/
theorem drain_since_last_command (session : SSHSession) (before after : List SessionEvent)
    (command : String) :
    (session.getBufferedOutput.1 = session.buffer ∧
      session.getBufferedOutput.2.buffer = "" ∧
      session.getBufferedOutput.2.getBufferedOutput.1 = "") ∧
    ((∀ e ∈ after, e.isCommand = false) →
      (session.getBufferedOutput.2.applyEvents after).getBufferedOutput.1 =
        String.join (after.filterMap SessionEvent.chunk?)) ∧
    (session.connected = true → session.stream.isSome = true →
      (∀ e ∈ after, e.isCommand = false) →
      (session.getBufferedOutput.2.applyEvents
          (before ++ SessionEvent.sendCommand command :: after)).getBufferedOutput.1 =
        String.join (after.filterMap SessionEvent.chunk?)) ∧
    (session.connected = false →
      (session.getBufferedOutput.2.applyEvents
          (before ++ SessionEvent.sendCommand command :: after)).getBufferedOutput.1 =
        String.join ((before ++ SessionEvent.sendCommand command :: after).filterMap
          SessionEvent.chunk?)) := by
  refine ⟨⟨rfl, rfl, rfl⟩, ?_, ?_, ?_⟩
  · intro hafter
    have := applyEvents_buffer after session.getBufferedOutput.2 (Or.inl hafter)
    simpa [SSHSession.getBufferedOutput] using this
  · intro hconn hstream hafter
    have hpres := applyEvents_connected before session.getBufferedOutput.2
    have hc : (session.getBufferedOutput.2.applyEvents before).connected = true :=
      hpres.1.trans hconn
    have hs : (session.getBufferedOutput.2.applyEvents before).stream.isSome = true :=
      hpres.2.trans hstream
    have hcmd := applyEvent_command_buffer _ command hc hs
    have hrest := applyEvents_buffer after
      ((session.getBufferedOutput.2.applyEvents before).applyEvent (.sendCommand command))
      (Or.inl hafter)
    rw [hcmd] at hrest
    simp only [SSHSession.applyEvents, List.foldl_append, List.foldl_cons,
      SSHSession.getBufferedOutput] at hrest ⊢
    rw [hrest]
    rfl
  · intro hclosed
    have := applyEvents_buffer (before ++ SessionEvent.sendCommand command :: after)
      session.getBufferedOutput.2 (Or.inr hclosed)
    simpa [SSHSession.getBufferedOutput] using this

/-- Witness of C13: on the open session two chunks arrive after a command,
one on each stream. -/
theorem drain_since_last_command_witness :
    (openSession.getBufferedOutput.2.applyEvents
        ([SessionEvent.data "a"] ++ SessionEvent.sendCommand "ls" ::
          [SessionEvent.data "b", SessionEvent.stderr "c"])).getBufferedOutput.1 =
      String.join
        ([SessionEvent.data "b", SessionEvent.stderr "c"].filterMap SessionEvent.chunk?) ∧
    (openSession.getBufferedOutput.2.applyEvents
        [SessionEvent.data "b", SessionEvent.stderr "c"]).getBufferedOutput.1 =
      String.join
        ([SessionEvent.data "b", SessionEvent.stderr "c"].filterMap SessionEvent.chunk?) :=
  ⟨(drain_since_last_command openSession [SessionEvent.data "a"]
      [SessionEvent.data "b", SessionEvent.stderr "c"] "ls").2.2.1 (by decide) (by decide)
      (by decide),
   (drain_since_last_command openSession [SessionEvent.data "a"]
      [SessionEvent.data "b", SessionEvent.stderr "c"] "ls").2.1 (by decide)⟩

/-- C14, as stated, fails: when the idle timer of the session of
`connectedState` expires the session is closed, and its host is still in the
registry and the owner's current-session pointer still names it. -/
theorem idleExpire_keeps_registry :
    (idleExpire connectedState 0 607000).1.heap[0]? = some closedSession ∧
    closedSession.connected = false ∧
    JsMap.get (idleExpire connectedState 0 607000).1.activeSessions "vps.example.org"
      = some 0 ∧
    JsMap.get (idleExpire connectedState 0 607000).1.currentSession "628123@s.whatsapp.net"
      = some "vps.example.org" := by
  decide

/-- C14, amended: when the armed idle timer of a session is due, the expiry
action closes the session object (not connected, no timer armed, the closing
line in its log) and leaves the registry, the current-session pointers and
every other part of the state as they were, so the closed session stays
registered.  It sends the idle notice, after scheduling the log document when
the chat id is not empty. -/
theorem idleExpire_closes_only (s : State) (ref : Nat) (session : SSHSession)
    (deadline now : Nat) (chatJid : String) (hobj : s.heap[ref]? = some session)
    (harmed : session.idleTimeout = some (deadline, chatJid)) (hdue : deadline ≤ now) :
    (idleExpire s ref now).1 =
      { s with
        heap := s.heap.set ref
          { session with
            connected := false, idleTimeout := none
            logLines := session.logLines ++ ["Connection closed by user"] } } ∧
    (idleExpire s ref now).1.heap[ref]? =
      some { session with
        connected := false, idleTimeout := none
        logLines := session.logLines ++ ["Connection closed by user"] } ∧
    (idleExpire s ref now).1.activeSessions = s.activeSessions ∧
    (idleExpire s ref now).1.currentSession = s.currentSession ∧
    (idleExpire s ref now).2 =
      (if strTruthy chatJid then
        [Effect.sendDocument chatJid session.host session.startTime,
          Effect.sendMessage chatJid .idleClosed]
      else [Effect.sendMessage chatJid .idleClosed]) := by
  have hclose : session.close (some chatJid) =
      ({ session with
          connected := false, idleTimeout := none
          logLines := session.logLines ++ ["Connection closed by user"] },
        if strTruthy chatJid then [Effect.sendDocument chatJid session.host session.startTime]
        else []) := by
    simp only [SSHSession.close, SSHSession.log]
    split <;> rfl
  have hres : idleExpire s ref now =
      ({ s with
          heap := s.heap.set ref
            { session with
              connected := false, idleTimeout := none
              logLines := session.logLines ++ ["Connection closed by user"] } },
        (if strTruthy chatJid then
          [Effect.sendDocument chatJid session.host session.startTime,
            Effect.sendMessage chatJid .idleClosed]
        else [Effect.sendMessage chatJid .idleClosed])) := by
    simp only [idleExpire, hobj, harmed, hdue, if_true, State.setSession, hclose]
    split <;> rfl
  have hlt : ref < s.heap.length := by
    obtain ⟨h, _⟩ := List.getElem?_eq_some.mp hobj
    exact h
  refine ⟨by rw [hres], ?_, by rw [hres], by rw [hres], by rw [hres]⟩
  rw [hres]
  exact List.getElem?_set_self hlt

/-- Witness of C14: the idle timer of the session of `connectedState` expires
at its deadline. -/
theorem idleExpire_closes_only_witness :
    (idleExpire connectedState 0 607000).1 =
      { connectedState with heap := connectedState.heap.set 0 closedSession } ∧
    (idleExpire connectedState 0 607000).1.activeSessions = connectedState.activeSessions ∧
    (idleExpire connectedState 0 607000).2 =
      (if strTruthy "chat" then
        [Effect.sendDocument "chat" openSession.host openSession.startTime,
          Effect.sendMessage "chat" .idleClosed]
      else [Effect.sendMessage "chat" .idleClosed]) :=
  ⟨(idleExpire_closes_only connectedState 0 openSession 607000 607000 "chat" (by decide)
      (by decide) (by decide)).1,
   (idleExpire_closes_only connectedState 0 openSession 607000 607000 "chat" (by decide)
      (by decide) (by decide)).2.2.1,
   (idleExpire_closes_only connectedState 0 openSession 607000 607000 "chat" (by decide)
      (by decide) (by decide)).2.2.2.2⟩

/-- C15, as stated, fails: a `.status` of the owner at 606000 ms, with the
timer of the current session armed for 607000 ms, leaves that deadline where
it was instead of moving it a full window after the command, and the timer
closes the session at 607000 ms. -/
theorem status_does_not_rearm :
    JsMap.get connectedState.currentSession "628123@s.whatsapp.net" = some "vps.example.org" ∧
    (handleMessage sampleConfig (sampleEnv 606000) connectedState
      (textMessage "628123@s.whatsapp.net" ".status")).handler = some "status" ∧
    ((handleMessage sampleConfig (sampleEnv 606000) connectedState
      (textMessage "628123@s.whatsapp.net" ".status")).state.heap[0]?.map
        SSHSession.idleTimeout) = some (some (607000, "chat")) ∧
    607000 ≠ 606000 + sampleConfig.sessionIdleMs ∧
    ((idleExpire (handleMessage sampleConfig (sampleEnv 606000) connectedState
      (textMessage "628123@s.whatsapp.net" ".status")).state 0 607000).1.heap[0]?.map
        SSHSession.connected) = some false := by
  decide

/-- C15, amended: the status handler does not re-arm the idle timer.  It
leaves the whole state as it was, and a `.status` message changes no session
object whatever the gates decide, so every idle deadline stays where the last
handler that armed it (confirm, install, safeinstall, ufw, send, enter,
ctrlc) put it. -/
theorem status_keeps_deadline (cfg : Config) (env : Env) (s : State)
    (chatJid senderJid : String) (message : Message) :
    (commands.status env s chatJid senderJid).state = s ∧
    (message.text = some ".status" →
      (handleMessage cfg env s message).state.heap = s.heap) := by
  refine ⟨status_state env s chatJid senderJid, ?_⟩
  intro htext
  have hparse : parseCommand ".status" = ("status", []) := by decide
  by_cases hown : isOwner cfg message.senderJid = true
  · by_cases hpanic : s.panicMode = true
    · simp [handleMessage, htext, hown, hpanic]
    · cases hr : (checkRateLimit cfg s message.senderJid env.now).1
      · simp [handleMessage, htext, hown, hpanic, hr, checkRateLimit_heap]
      · simp [handleMessage, htext, hown, hpanic, hr, hparse, resolveAlias, runCommand,
          status_state, checkRateLimit_heap]
  · simp [handleMessage, htext, hown]

/-- Witness of C15: the owner's `.status` in `connectedState`. -/
theorem status_keeps_deadline_witness :
    (handleMessage sampleConfig (sampleEnv 606000) connectedState
      (textMessage "628123@s.whatsapp.net" ".status")).state.heap = connectedState.heap :=
  (status_keeps_deadline sampleConfig (sampleEnv 606000) connectedState "chat"
    "628123@s.whatsapp.net" (textMessage "628123@s.whatsapp.net" ".status")).2 (by decide)

end Bot
